import Mathlib

/-!
# Jobly data-access layer: filtered list queries and partial updates

A shallow embedding of `models/company.js` and `models/job.js`.

* A JavaScript object is represented by the list of its own enumerable
  entries in the order `Object.entries` yields them.
* An `async` function is a function from the session (database state and
  the log of issued statements) to an outcome and a new session; the
  outcome is `Except.error e` when the promise rejects with `e` (a `throw`)
  and `Except.ok v` when it resolves with `v` (a `return`).
* `db.query(text, values)` is a call to an arbitrary database `Db σ`; every
  call is appended to `Session.issued`.
* The built-ins whose results depend on tables outside the repository
  (Unicode lowercasing, the printing of numbers and objects) are taken from an
  arbitrary `Runtime`.
-/

namespace Jobly

/-! ## JavaScript values -/

/-- JavaScript values that reach the models: the primitives, and `object`
for any non-primitive (always truthy, compared by reference). Numbers are
represented by integers; `number 0` is the falsy number. -/
inductive JsValue where
  | undefined
  | null
  | bool (b : Bool)
  | number (n : Int)
  | string (s : String)
  | object (ref : Nat)
  deriving DecidableEq, Repr

/-- Truthiness, as tested by `&& value` and `if (value)`. -/
def JsValue.truthy : JsValue → Bool
  | .undefined => false
  | .null => false
  | .bool b => b
  | .number n => n != 0
  | .string s => s != ""
  | .object _ => true

/-- The built-ins of the JavaScript runtime that the models call and whose
results depend on tables outside this repository: `String.prototype.toLowerCase`
(Unicode case mapping), and the string conversion of a number and of an
object inside a template literal. The models are stated for an arbitrary
runtime. -/
structure Runtime where
  toLowerCase : String → String
  numberToString : Int → String
  objectToString : Nat → String

/-- String conversion performed by a template literal `${v}`: the conversion
of the primitives that is fixed by the language, and the runtime's conversion
of a number and of an object. -/
def JsValue.toStr (js : Runtime) : JsValue → String
  | .undefined => "undefined"
  | .null => "null"
  | .bool b => if b then "true" else "false"
  | .number n => js.numberToString n
  | .string s => s
  | .object ref => js.objectToString ref

/-- Lowercasing of the ASCII letters, which is what
`String.prototype.toLowerCase` does on ASCII text. -/
def asciiLowerCase (s : String) : String :=
  String.mk (s.data.map Char.toLower)

/-- An example runtime for evaluating the models on concrete inputs: it agrees
with JavaScript on ASCII strings, on integers below `10 ^ 21` in absolute
value and on plain objects. -/
def asciiRuntime : Runtime :=
  { toLowerCase := asciiLowerCase
    numberToString := fun n => toString n
    objectToString := fun _ => "[object Object]" }

/-- A JavaScript object: its entries in `Object.entries` order. -/
abbrev JsObject := List (String × JsValue)

/-- Property read `obj.k`: `undefined` when the object has no such key. -/
def JsObject.prop (obj : JsObject) (k : String) : JsValue :=
  (obj.lookup k).getD .undefined

/-- Errors of `expressError.js` that the models construct, the `TypeError`
the runtime throws on a property access or call on a value that does not
support it, and errors coming out of the database driver. -/
inductive JsError where
  | badRequest (message : String)
  | notFound (message : String)
  | typeError
  | database (message : String)
  deriving DecidableEq, Repr

/-! ## The database collaborator -/

/-- One call `db.query(text, values)`. -/
structure Query where
  text : String
  values : List JsValue
  deriving DecidableEq, Repr

/-- A result row. -/
abbrev Row := JsObject

/-- The database: given its state and a statement, it either fails or
answers with `rows`, and moves to a new state. -/
structure Db (σ : Type) where
  query : σ → Query → Except JsError (List Row) × σ

/-- Database state together with the statements issued so far, oldest first. -/
structure Session (σ : Type) where
  state : σ
  issued : List Query

/-- Run `await db.query(text, values)`: log the statement and ask the database. -/
def Db.run {σ : Type} (db : Db σ) (q : Query) (s : Session σ) :
    Except JsError (List Row) × Session σ :=
  let r := db.query s.state q
  (r.1, { state := r.2, issued := s.issued ++ [q] })

/-! ## `findAll`: the filter loop -/

/-- The three loop variables of `findAll`. -/
structure FilterState where
  filterStatement : String
  sqlVariables : List JsValue
  index : Nat
  deriving DecidableEq, Repr

/-- How the loop of `findAll` can leave the function early. -/
inductive LoopExit where
  /-- `return new BadRequestError(...)`: the error object is the return value. -/
  | returned (e : JsError)
  /-- An exception. -/
  | thrown (e : JsError)
  deriving DecidableEq, Repr

/-- The two statements that open a predicate: `" AND "` is appended to a
non-empty statement, an empty one becomes `"WHERE "`, both only for a
truthy value. -/
def openPredicate (filterStatement : String) (value : JsValue) : String :=
  if filterStatement != "" && value.truthy then filterStatement ++ " AND "
  else if filterStatement == "" && value.truthy then "WHERE "
  else filterStatement

/-- The initial values of the loop variables. -/
def FilterState.init : FilterState :=
  { filterStatement := "", sqlVariables := [], index := 1 }

namespace Company

/-- One iteration of the loop of `Company.findAll` (company.js lines 62-88). -/
def filterStep (js : Runtime) (st : FilterState) (key : String) (value : JsValue) :
    Except LoopExit FilterState :=
  if key != "name" && key != "minEmployees" && key != "maxEmployees" then
    .error (.returned (.badRequest "Query Variables invalid"))
  else
    let fs := openPredicate st.filterStatement value
    if key == "name" && value.truthy then
      match value with
      | .string v =>
        .ok { filterStatement := fs ++ ("LOWER(name) LIKE $" ++ toString st.index)
              sqlVariables := st.sqlVariables ++ [.string ("%" ++ js.toLowerCase v ++ "%")]
              index := st.index + 1 }
      | _ => .error (.thrown .typeError)
    else if key == "minEmployees" && value.truthy then
      .ok { filterStatement := fs ++ ("num_employees >= $" ++ toString st.index)
            sqlVariables := st.sqlVariables ++ [value]
            index := st.index + 1 }
    else if key == "maxEmployees" && value.truthy then
      .ok { filterStatement := fs ++ ("num_employees <= $" ++ toString st.index)
            sqlVariables := st.sqlVariables ++ [value]
            index := st.index + 1 }
    else
      .ok { filterStatement := fs, sqlVariables := st.sqlVariables, index := st.index + 1 }

/-- The loop `for (const [key, value] of Object.entries(filter))`. -/
def filterLoop (js : Runtime) :
    List (String × JsValue) → FilterState → Except LoopExit FilterState
  | [], st => .ok st
  | (key, value) :: rest, st =>
    match filterStep js st key value with
    | .error e => .error e
    | .ok st' => filterLoop js rest st'

end Company

namespace Job

/-- One iteration of the loop of `Job.findAll` (job.js lines 57-82). -/
def filterStep (js : Runtime) (st : FilterState) (key : String) (value : JsValue) :
    Except LoopExit FilterState :=
  if key != "title" && key != "hasEquity" && key != "minSalary" then
    .error (.returned (.badRequest "Query Variables invalid"))
  else
    let fs := openPredicate st.filterStatement value
    if key == "title" && value.truthy then
      match value with
      | .string v =>
        .ok { filterStatement := fs ++ ("LOWER(title) LIKE $" ++ toString st.index)
              sqlVariables := st.sqlVariables ++ [.string ("%" ++ js.toLowerCase v ++ "%")]
              index := st.index + 1 }
      | _ => .error (.thrown .typeError)
    else if key == "minSalary" && value.truthy then
      .ok { filterStatement := fs ++ ("salary >= $" ++ toString st.index)
            sqlVariables := st.sqlVariables ++ [value]
            index := st.index + 1 }
    else if key == "hasEquity" && value.truthy then
      .ok { filterStatement := fs ++ "equity > 0"
            sqlVariables := st.sqlVariables
            index := st.index + 1 }
    else
      .ok { filterStatement := fs, sqlVariables := st.sqlVariables, index := st.index + 1 }

/-- The loop `for (const [key, value] of Object.entries(filter))`. -/
def filterLoop (js : Runtime) :
    List (String × JsValue) → FilterState → Except LoopExit FilterState
  | [], st => .ok st
  | (key, value) :: rest, st =>
    match filterStep js st key value with
    | .error e => .error e
    | .ok st' => filterLoop js rest st'

end Job

/-! ## The partial-update helper -/

/-- The pair `{ setCols, values }` returned by `sqlForPartialUpdate`. -/
structure SetClause where
  setCols : String
  values : List JsValue
  deriving DecidableEq, Repr

/-- Modelled from the spec: the column a data key is written to, the entry
of the column map for that key if there is one and the key itself otherwise
(`helpers/sql.js` is not among the sources). -/
def columnFor (columnMap : List (String × String)) (k : String) : String :=
  (columnMap.lookup k).getD k

/-- Modelled from the spec: one fragment `"<column>"=$<position>` per entry of
the data, in iteration order, positions counted upwards from `position`
(`helpers/sql.js` is not among the sources). -/
def setFragments (columnMap : List (String × String)) :
    List (String × JsValue) → Nat → List String
  | [], _ => []
  | (k, _) :: rest, position =>
    ("\"" ++ columnFor columnMap k ++ "\"=$" ++ toString position) ::
      setFragments columnMap rest (position + 1)

/-- Modelled from the spec: `sqlForPartialUpdate` of `helpers/sql.js`, which
is not among the sources (section 4.1, `buildSetClause`). Empty data fails
with `BadRequest` before any text is produced; otherwise the fragments are
joined with `", "` and the values are the raw values of the data, in the
same order. -/
def sqlForPartialUpdate (dataToUpdate : JsObject) (jsToSql : List (String × String)) :
    Except JsError SetClause :=
  match dataToUpdate with
  | [] => .error (.badRequest "no data")
  | _ :: _ =>
    .ok { setCols := ", ".intercalate (setFragments jsToSql dataToUpdate 1)
          values := dataToUpdate.map Prod.snd }

/-! ## Reading SQL text -/

/-- The placeholder read so far, as emitted when the scan leaves it: nothing
when no digit followed the `$`. -/
def emitPlaceholder : Option Nat → List Nat
  | none => []
  | some n => [n]

/-- The placeholder indices `$<digits>` of a text, left to right. The second
argument is `none` outside a placeholder and `some r` after a `$`, where `r`
is the number formed by the digits read since, if any. -/
def scanPlaceholders : List Char → Option (Option Nat) → List Nat
  | [], none => []
  | [], some r => emitPlaceholder r
  | c :: cs, none =>
    if c = '$' then scanPlaceholders cs (some none) else scanPlaceholders cs none
  | c :: cs, some r =>
    if c.isDigit then scanPlaceholders cs (some (some (10 * r.getD 0 + (c.toNat - 48))))
    else
      emitPlaceholder r ++
        (if c = '$' then scanPlaceholders cs (some none) else scanPlaceholders cs none)

/-- The placeholder indices occurring in a SQL text, left to right. -/
def placeholders (text : String) : List Nat :=
  scanPlaceholders text.data none

/-- Whether the characters `pat` occur contiguously in a list of characters. -/
def occursIn (pat : List Char) : List Char → Bool
  | [] => pat.isEmpty
  | c :: cs => (pat == (c :: cs).take pat.length) || occursIn pat cs

/-! ## `Company` -/

/-- What `findAll` resolves with: the rows of the query, or, on the early
`return`, the error object it constructed. -/
inductive FindAllResult where
  | rows (rs : List Row)
  | errorObject (e : JsError)
  deriving DecidableEq, Repr

/-- What `Company.get` resolves with: the company row with its `jobs`
property set to the rows of the jobs query. -/
structure CompanyWithJobs where
  company : Row
  jobs : List Row
  deriving DecidableEq, Repr

namespace Company

/-- The text of the SELECT of `findAll` (company.js lines 91-98). -/
def findAllText (filterStatement : String) : String :=
  "SELECT handle,\n                  name,\n                  description,\n                  num_employees AS \"numEmployees\",\n                  logo_url AS \"logoUrl\"\n           FROM companies\n           "
    ++ filterStatement ++ "\n           ORDER BY name"

/-- `Company.findAll(filter)` (company.js lines 57-101). -/
def findAll {σ : Type} (js : Runtime) (db : Db σ) (filter : JsObject) (s : Session σ) :
    Except JsError FindAllResult × Session σ :=
  match filterLoop js filter FilterState.init with
  | .error (.returned e) => (.ok (.errorObject e), s)
  | .error (.thrown e) => (.error e, s)
  | .ok st =>
    match db.run { text := findAllText st.filterStatement, values := st.sqlVariables } s with
    | (.error e, s') => (.error e, s')
    | (.ok rs, s') => (.ok (.rows rs), s')

/-- The companies statement of `get` (company.js lines 113-120). -/
def getCompanyQuery (handle : JsValue) : Query :=
  { text := "SELECT handle,\n                  name,\n                  description,\n                  num_employees AS \"numEmployees\",\n                  logo_url AS \"logoUrl\"\n           FROM companies\n           WHERE handle = $1"
    values := [handle] }

/-- The jobs statement of `get` (company.js lines 123-130). -/
def getJobsQuery (handle : JsValue) : Query :=
  { text := "SELECT id,\n                title,\n                salary,\n                equity,\n                company_handle\n        FROM jobs\n        WHERE company_handle = $1"
    values := [handle] }

/-- `Company.get(handle)` (company.js lines 111-142). `jobRes.rows` is an
array, hence truthy, so `company.jobs = jobs` is always executed; on an
`undefined` company that assignment throws a `TypeError`. -/
def get {σ : Type} (db : Db σ) (handle : JsValue) (s : Session σ) :
    Except JsError CompanyWithJobs × Session σ :=
  match db.run (getCompanyQuery handle) s with
  | (.error e, s1) => (.error e, s1)
  | (.ok companyRows, s1) =>
    match db.run (getJobsQuery handle) s1 with
    | (.error e, s2) => (.error e, s2)
    | (.ok jobs, s2) =>
      match companyRows.head? with
      | none => (.error .typeError, s2)
      | some company => (.ok { company := company, jobs := jobs }, s2)

/-- The text of the UPDATE of `update` (company.js lines 165-172). -/
def updateText (setCols handleVarIdx : String) : String :=
  "UPDATE companies \n                      SET " ++ setCols
    ++ " \n                      WHERE handle = " ++ handleVarIdx
    ++ " \n                      RETURNING handle, \n                                name, \n                                description, \n                                num_employees AS \"numEmployees\", \n                                logo_url AS \"logoUrl\""

/-- `Company.update(handle, data)` (company.js lines 156-179). -/
def update {σ : Type} (js : Runtime) (db : Db σ) (handle : JsValue) (data : JsObject)
    (s : Session σ) :
    Except JsError Row × Session σ :=
  match sqlForPartialUpdate data [("numEmployees", "num_employees"), ("logoUrl", "logo_url")] with
  | .error e => (.error e, s)
  | .ok r =>
    let handleVarIdx := "$" ++ toString (r.values.length + 1)
    match db.run { text := updateText r.setCols handleVarIdx, values := r.values ++ [handle] } s with
    | (.error e, s') => (.error e, s')
    | (.ok rows, s') =>
      match rows.head? with
      | none => (.error (.notFound ("No company: " ++ handle.toStr js)), s')
      | some company => (.ok company, s')

end Company

/-! ## `Job` -/

namespace Job

/-- The existence check of `create` (job.js lines 19-23). -/
def companyCheckQuery (company_handle : JsValue) : Query :=
  { text := "SELECT handle \n            FROM companies\n            WHERE handle = $1"
    values := [company_handle] }

/-- The INSERT of `create` (job.js lines 28-39). -/
def insertQuery (title salary equity company_handle : JsValue) : Query :=
  { text := "INSERT INTO jobs\n            (title, salary, equity, company_handle)\n            VALUES ($1, $2, $3, $4)\n            RETURNING id, title, salary, equity, company_handle"
    values := [title, salary, equity, company_handle] }

/-- A destructuring default `= d`: it replaces `undefined` only. -/
def orDefault (v d : JsValue) : JsValue :=
  if v = .undefined then d else v

/-- `Job.create({ title, salary = null, equity = null, company_handle })`
(job.js lines 18-43). The result is `result.rows[0]`, `undefined` when the
INSERT returns no row. -/
def create {σ : Type} (js : Runtime) (db : Db σ) (data : JsObject) (s : Session σ) :
    Except JsError (Option Row) × Session σ :=
  let title := data.prop "title"
  let salary := orDefault (data.prop "salary") .null
  let equity := orDefault (data.prop "equity") .null
  let company_handle := data.prop "company_handle"
  match db.run (companyCheckQuery company_handle) s with
  | (.error e, s1) => (.error e, s1)
  | (.ok companyCheck, s1) =>
    match companyCheck.head? with
    | none => (.error (.badRequest ("Company doesn\x27t exist: " ++ company_handle.toStr js)), s1)
    | some _ =>
      match db.run (insertQuery title salary equity company_handle) s1 with
      | (.error e, s2) => (.error e, s2)
      | (.ok rows, s2) => (.ok rows.head?, s2)

/-- The text of the SELECT of `findAll` (job.js lines 85-92). -/
def findAllText (filterStatement : String) : String :=
  "SELECT id,\n                  title,\n                  salary,\n                  equity,\n                  company_handle\n           FROM jobs\n           "
    ++ filterStatement ++ "\n           ORDER BY title"

/-- `Job.findAll(filter)` (job.js lines 52-95). -/
def findAll {σ : Type} (js : Runtime) (db : Db σ) (filter : JsObject) (s : Session σ) :
    Except JsError FindAllResult × Session σ :=
  match filterLoop js filter FilterState.init with
  | .error (.returned e) => (.ok (.errorObject e), s)
  | .error (.thrown e) => (.error e, s)
  | .ok st =>
    match db.run { text := findAllText st.filterStatement, values := st.sqlVariables } s with
    | (.error e, s') => (.error e, s')
    | (.ok rs, s') => (.ok (.rows rs), s')

/-- The text of the UPDATE of `update` (job.js lines 141-148). -/
def updateText (setCols idVarIdx : String) : String :=
  "UPDATE jobs \n                      SET " ++ setCols
    ++ " \n                      WHERE id = " ++ idVarIdx
    ++ " \n                      RETURNING id, \n                                title, \n                                salary, \n                                equity,\n                                company_handle"

/-- `Job.update(id, data)` (job.js lines 130-155); the `console.log` of the
placeholder is not part of the session. -/
def update {σ : Type} (js : Runtime) (db : Db σ) (id : JsValue) (data : JsObject)
    (s : Session σ) :
    Except JsError Row × Session σ :=
  match sqlForPartialUpdate data [("title", "title"), ("salary", "salary"), ("equity", "equity")] with
  | .error e => (.error e, s)
  | .ok r =>
    let idVarIdx := "$" ++ toString (r.values.length + 1)
    match db.run { text := updateText r.setCols idVarIdx, values := r.values ++ [id] } s with
    | (.error e, s') => (.error e, s')
    | (.ok rows, s') =>
      match rows.head? with
      | none => (.error (.notFound ("No job: " ++ id.toStr js)), s')
      | some job => (.ok job, s')

end Job

/-! ## The shape of a clause -/

/-- The predicate that `Company.findAll` appends for an allowed key when the
loop index is `n` (company.js lines 75, 80, 84). -/
def Company.predicateText (key : String) (n : Nat) : String :=
  if key = "name" then "LOWER(name) LIKE $" ++ toString n
  else if key = "minEmployees" then "num_employees >= $" ++ toString n
  else "num_employees <= $" ++ toString n

/-- The predicate that `Job.findAll` appends for an allowed key when the loop
index is `n` (job.js lines 70, 75, 79). -/
def Job.predicateText (key : String) (n : Nat) : String :=
  if key = "title" then "LOWER(title) LIKE $" ++ toString n
  else if key = "minSalary" then "salary >= $" ++ toString n
  else "equity > 0"

/-- The predicates of the entries with a truthy value, in iteration order,
the entry at position `i` (0-based) being given the index `n + i`. -/
def emittedPredicates (predicateText : String → Nat → String) : JsObject → Nat → List String
  | [], _ => []
  | (key, value) :: rest, n =>
    if value.truthy then predicateText key n :: emittedPredicates predicateText rest (n + 1)
    else emittedPredicates predicateText rest (n + 1)

/-- The clause made of a list of predicates, in the words of the spec: the
predicates joined with `" AND "` and prefixed with `"WHERE "` if there is at
least one, the empty string otherwise. -/
def whereClause (predicates : List String) : String :=
  match predicates with
  | [] => ""
  | _ :: _ => "WHERE " ++ " AND ".intercalate predicates

/-- The number written by a list of decimal digit characters. -/
def digitsValue (cs : List Char) : Nat :=
  cs.foldl (fun acc c => 10 * acc + (c.toNat - 48)) 0

/-! ## Example databases -/

/-- A database without companies: the companies statement of `Company.get`
returns no row, every other statement returns `jobs`. -/
def noCompanyDb (jobs : List Row) : Db Unit :=
  { query := fun st q =>
      if q.text = (Company.getCompanyQuery .null).text then (.ok [], st) else (.ok jobs, st) }

/-- A database whose companies table holds exactly the handle `c2`; an INSERT
returns one row with the new id. -/
def oneCompanyDb : Db Unit :=
  { query := fun st q =>
      if q = Job.companyCheckQuery (.string "c2") then (.ok [[("handle", .string "c2")]], st)
      else if q.text = (Job.companyCheckQuery .null).text then (.ok [], st)
      else (.ok [[("id", .number 1)]], st) }

/-- A database that answers every statement with no rows. -/
def emptyDb : Db Unit :=
  { query := fun st _ => (.ok [], st) }

/-! ## General facts about `findAll` -/

/-- When the loop of `Company.findAll` runs to its end, the function issues
exactly one statement, built from the final loop variables, and its outcome
is the database's answer. -/
theorem company_findAll_of_loop_ok {σ : Type} (js : Runtime) (db : Db σ) (filter : JsObject)
    (s : Session σ) (st : FilterState)
    (h : Company.filterLoop js filter FilterState.init = .ok st) :
    Company.findAll js db filter s =
      ((db.query s.state ⟨Company.findAllText st.filterStatement, st.sqlVariables⟩).1.map
          FindAllResult.rows,
        { state := (db.query s.state ⟨Company.findAllText st.filterStatement, st.sqlVariables⟩).2
          issued := s.issued ++ [⟨Company.findAllText st.filterStatement, st.sqlVariables⟩] }) := by
  unfold Company.findAll Db.run
  rw [h]
  cases hq : (db.query s.state ⟨Company.findAllText st.filterStatement, st.sqlVariables⟩).1 <;>
    simp [hq, Except.map]

/-- The same fact for `Job.findAll`. -/
theorem job_findAll_of_loop_ok {σ : Type} (js : Runtime) (db : Db σ) (filter : JsObject)
    (s : Session σ) (st : FilterState)
    (h : Job.filterLoop js filter FilterState.init = .ok st) :
    Job.findAll js db filter s =
      ((db.query s.state ⟨Job.findAllText st.filterStatement, st.sqlVariables⟩).1.map
          FindAllResult.rows,
        { state := (db.query s.state ⟨Job.findAllText st.filterStatement, st.sqlVariables⟩).2
          issued := s.issued ++ [⟨Job.findAllText st.filterStatement, st.sqlVariables⟩] }) := by
  unfold Job.findAll Db.run
  rw [h]
  cases hq : (db.query s.state ⟨Job.findAllText st.filterStatement, st.sqlVariables⟩).1 <;>
    simp [hq, Except.map]

/-! ## An unknown filter key -/

/-- C1 (fails on the code): for the filters `{color: "red"}` and
`{name: "c1", color: "red"}` (`{title: "j1", color: "red"}` for jobs), which
contain a key outside the allowed set, `Company.findAll` and `Job.findAll` do
not reject: the promise resolves, and its value is the `BadRequestError`
object that the loop `return`s. -/
theorem findAll_invalid_key_resolves_with_error_object {σ : Type} (js : Runtime) (db : Db σ)
    (s : Session σ) :
    Company.findAll js db [("color", .string "red")] s
        = (.ok (.errorObject (.badRequest "Query Variables invalid")), s) ∧
      Company.findAll js db [("name", .string "c1"), ("color", .string "red")] s
        = (.ok (.errorObject (.badRequest "Query Variables invalid")), s) ∧
      Job.findAll js db [("color", .string "red")] s
        = (.ok (.errorObject (.badRequest "Query Variables invalid")), s) ∧
      Job.findAll js db [("title", .string "j1"), ("color", .string "red")] s
        = (.ok (.errorObject (.badRequest "Query Variables invalid")), s) :=
  ⟨rfl, rfl, rfl, rfl⟩

/-! ## Placeholders against bound values -/

/-- C2 (fails on the code): for the filter `{name: "", minEmployees: 2}`,
whose keys are all allowed, `Company.findAll` issues a statement whose clause
is `WHERE num_employees >= $2` with the one-element value list `[2]`: the
only placeholder is `$2`, not `$1`, and no value is bound at position 2. -/
theorem Company_findAll_skipped_entry_shifts_placeholder {σ : Type} (js : Runtime) (db : Db σ)
    (s : Session σ) :
    Company.filterLoop js [("name", .string ""), ("minEmployees", .number 2)] FilterState.init
        = .ok ⟨"WHERE num_employees >= $2", [.number 2], 3⟩ ∧
      (Company.findAll js db [("name", .string ""), ("minEmployees", .number 2)] s).2.issued
        = s.issued ++ [⟨Company.findAllText "WHERE num_employees >= $2", [.number 2]⟩] ∧
      placeholders "WHERE num_employees >= $2" = [2] ∧
      placeholders "WHERE num_employees >= $2" ≠ List.range' 1 [JsValue.number 2].length := by
  refine ⟨rfl, ?_, rfl, by decide⟩
  rw [company_findAll_of_loop_ok js db [("name", .string ""), ("minEmployees", .number 2)] s
    ⟨"WHERE num_employees >= $2", [.number 2], 3⟩ rfl]

/-- C3 (fails on the code): for the job filter `{hasEquity: true, minSalary: 10}`,
whose keys are all allowed and whose values are all truthy, `Job.findAll`
issues a statement whose clause is `WHERE equity > 0 AND salary >= $2` with the
one-element value list `[10]`: the placeholder `$2` exceeds the length of the
value list, and the value bound for the salary predicate sits at position 0. -/
theorem Job_findAll_hasEquity_shifts_placeholder {σ : Type} (js : Runtime) (db : Db σ)
    (s : Session σ) :
    Job.filterLoop js [("hasEquity", .bool true), ("minSalary", .number 10)] FilterState.init
        = .ok ⟨"WHERE equity > 0 AND salary >= $2", [.number 10], 3⟩ ∧
      (Job.findAll js db [("hasEquity", .bool true), ("minSalary", .number 10)] s).2.issued
        = s.issued ++ [⟨Job.findAllText "WHERE equity > 0 AND salary >= $2", [.number 10]⟩] ∧
      placeholders "WHERE equity > 0 AND salary >= $2" = [2] ∧
      ¬ (2 ≤ [JsValue.number 10].length) := by
  refine ⟨rfl, ?_, rfl, by decide⟩
  rw [job_findAll_of_loop_ok js db [("hasEquity", .bool true), ("minSalary", .number 10)] s
    ⟨"WHERE equity > 0 AND salary >= $2", [.number 10], 3⟩ rfl]

/-! ## `sqlForPartialUpdate` -/

/-- There is one fragment per entry of the data. -/
theorem setFragments_length (m : List (String × String)) (data : List (String × JsValue))
    (p : Nat) : (setFragments m data p).length = data.length := by
  induction data generalizing p with
  | nil => rfl
  | cons e rest ih => simp [setFragments, ih]

/-- The fragment at position `i` names the column of the `i`-th key and
carries the placeholder `p + i`. -/
theorem setFragments_getElem? (m : List (String × String)) (data : List (String × JsValue))
    (p i : Nat) (hi : i < data.length) :
    (setFragments m data p)[i]? =
      some ("\"" ++ columnFor m data[i].1 ++ "\"=$" ++ toString (p + i)) := by
  induction data generalizing p i with
  | nil => simp at hi
  | cons e rest ih =>
    cases i with
    | zero => simp [setFragments]
    | succ j =>
      have hj : j < rest.length := by simpa using hi
      simp only [setFragments, List.getElem?_cons_succ, List.getElem_cons_succ]
      rw [ih (p + 1) j hj]
      have : p + 1 + j = p + (j + 1) := by omega
      rw [this]

/-- The fragments depend on the column map only through its entries for the
keys of the data. -/
theorem setFragments_congr (m m' : List (String × String)) (data : List (String × JsValue))
    (p : Nat) (h : ∀ k ∈ data.map Prod.fst, m'.lookup k = m.lookup k) :
    setFragments m' data p = setFragments m data p := by
  induction data generalizing p with
  | nil => rfl
  | cons e rest ih =>
    have h1 : m'.lookup e.1 = m.lookup e.1 := h e.1 (by simp)
    have h2 : ∀ k ∈ rest.map Prod.fst, m'.lookup k = m.lookup k := fun k hk =>
      h k (by simp only [List.map_cons, List.mem_cons]; exact Or.inr hk)
    simp [setFragments, columnFor, h1, ih (p + 1) h2]

/-- C4: for non-empty `data` and any column map `m`, `sqlForPartialUpdate`
returns `setCols` equal to `data.length` fragments joined by `", "`, the
fragment at position `i` (0-based) being `"c"=$(i+1)` where `c` is `m[k]` for
the `i`-th key `k` if `m` has that key and `k` itself otherwise, and `values`
equal to the values of `data` in order and unconverted, so of the same length;
a column map that agrees with `m` on the keys of `data` gives the same result. -/
theorem sqlForPartialUpdate_assignments (data : JsObject) (m : List (String × String))
    (h : data ≠ []) :
    ∃ fragments : List String,
      sqlForPartialUpdate data m
          = .ok { setCols := ", ".intercalate fragments, values := data.map Prod.snd } ∧
        fragments.length = data.length ∧
        (data.map Prod.snd).length = data.length ∧
        (∀ (i : Nat) (hi : i < data.length),
          fragments[i]? = some ("\"" ++
              (match m.lookup data[i].1 with
                | some c => c
                | none => data[i].1)
              ++ "\"=$" ++ toString (i + 1)) ∧
            (data.map Prod.snd)[i]? = some data[i].2) ∧
        (∀ m' : List (String × String),
          (∀ k ∈ data.map Prod.fst, m'.lookup k = m.lookup k) →
            sqlForPartialUpdate data m' = sqlForPartialUpdate data m) := by
  refine ⟨setFragments m data 1, ?_, setFragments_length m data 1, by simp, ?_, ?_⟩
  · cases data with
    | nil => exact absurd rfl h
    | cons e rest => rfl
  · intro i hi
    refine ⟨?_, by simp [hi]⟩
    rw [setFragments_getElem? m data 1 i hi, Nat.add_comm 1 i]
    unfold columnFor
    cases m.lookup data[i].1 <;> rfl
  · intro m' hm
    cases data with
    | nil => rfl
    | cons e rest =>
      simp only [sqlForPartialUpdate]
      rw [setFragments_congr m m' (e :: rest) 1 hm]

/-- C4 at the input of `sql.test.js`: the expected value of the test. -/
theorem sqlForPartialUpdate_assignments_witness :
    ([("firstName", JsValue.string "Aliya"), ("age", JsValue.number 32)] : JsObject) ≠ [] ∧
    ∃ fragments : List String,
      sqlForPartialUpdate [("firstName", .string "Aliya"), ("age", .number 32)]
          [("firstName", "first_name"), ("lastName", "last_name"), ("isAdmin", "is_admin")]
        = .ok { setCols := ", ".intercalate fragments
                values := [.string "Aliya", .number 32] } ∧
      fragments.length = 2 :=
  ⟨by simp,
    (sqlForPartialUpdate_assignments [("firstName", .string "Aliya"), ("age", .number 32)]
      [("firstName", "first_name"), ("lastName", "last_name"), ("isAdmin", "is_admin")]
      (by simp)).imp fun _ hf => ⟨hf.1, hf.2.1⟩⟩

/-- The test of `sql.test.js`, evaluated on the model. -/
theorem sqlForPartialUpdate_test_example :
    sqlForPartialUpdate [("firstName", .string "Aliya"), ("age", .number 32)]
        [("firstName", "first_name"), ("lastName", "last_name"), ("isAdmin", "is_admin")]
      = .ok { setCols := "\"first_name\"=$1, \"age\"=$2"
              values := [.string "Aliya", .number 32] } := rfl

/-- C5: with an empty data mapping, `sqlForPartialUpdate` fails with
`BadRequest` and returns no text, and `Job.update` and `Company.update` reject
with that error for every id or handle and every database, leaving the session
unchanged: no statement is issued. -/
theorem update_empty_data_bad_request {σ : Type} (js : Runtime) (db : Db σ) (key : JsValue)
    (s : Session σ) (m : List (String × String)) :
    sqlForPartialUpdate [] m = .error (.badRequest "no data") ∧
      Job.update js db key [] s = (.error (.badRequest "no data"), s) ∧
      Company.update js db key [] s = (.error (.badRequest "no data"), s) :=
  ⟨rfl, rfl, rfl⟩

/-! ## `Company.get` on a missing company -/

/-- Whenever the companies statement returns no row and the jobs statement
returns rows at all, `Company.get` rejects with the `TypeError` of the
assignment `company.jobs = jobs`, after both statements. -/
theorem company_get_of_no_company {σ : Type} (db : Db σ) (handle : JsValue)
    (s : Session σ) (jobs : List Row) (σ1 σ2 : σ)
    (h1 : db.query s.state (Company.getCompanyQuery handle) = (.ok [], σ1))
    (h2 : db.query σ1 (Company.getJobsQuery handle) = (.ok jobs, σ2)) :
    Company.get db handle s =
      (.error .typeError,
        { state := σ2
          issued := s.issued ++ [Company.getCompanyQuery handle, Company.getJobsQuery handle] }) := by
  simp [Company.get, Db.run, h1, h2]

/-- C6 (fails on the code): on a database whose companies statement returns
no row, `Company.get(handle)` rejects with a `TypeError`, not with
`NotFoundError`, for every handle and whatever rows the jobs statement
returns. -/
theorem Company_get_missing_company_throws_typeError (handle : JsValue)
    (jobs : List Row) (issued : List Query) :
    Company.get (noCompanyDb jobs) handle { state := (), issued := issued } =
      (.error .typeError,
        { state := ()
          issued := issued ++ [Company.getCompanyQuery handle, Company.getJobsQuery handle] }) :=
  company_get_of_no_company (noCompanyDb jobs) handle _ jobs () ()
    (by simp [noCompanyDb, Company.getCompanyQuery])
    (by simp [noCompanyDb, Company.getCompanyQuery, Company.getJobsQuery])

/-! ## `Job.create` -/

/-- C7: when the existence check returns no row, `Job.create` rejects with
`BadRequestError` and the existence check is the only statement issued; when
it returns a row, the statements issued are the check followed by exactly one
INSERT with parameters `[title, salary, equity, company_handle]`, where
`salary` and `equity` are `null` when the input omits them (or has them
`undefined`) and the given value otherwise. -/
theorem Job_create_checks_company {σ : Type} (js : Runtime) (db : Db σ) (data : JsObject)
    (s : Session σ) :
    ∃ salary equity : JsValue,
      (data.lookup "salary" = none ∨ data.lookup "salary" = some .undefined → salary = .null) ∧
      (∀ v, data.lookup "salary" = some v → v ≠ .undefined → salary = v) ∧
      (data.lookup "equity" = none ∨ data.lookup "equity" = some .undefined → equity = .null) ∧
      (∀ v, data.lookup "equity" = some v → v ≠ .undefined → equity = v) ∧
      (∀ σ1, db.query s.state (Job.companyCheckQuery (data.prop "company_handle")) = (.ok [], σ1) →
        Job.create js db data s =
          (.error (.badRequest ("Company doesn\x27t exist: " ++ (data.prop "company_handle").toStr js)),
            { state := σ1
              issued := s.issued ++ [Job.companyCheckQuery (data.prop "company_handle")] })) ∧
      (∀ row rows σ1,
        db.query s.state (Job.companyCheckQuery (data.prop "company_handle"))
            = (.ok (row :: rows), σ1) →
        (Job.create js db data s).2.issued =
          s.issued ++ [Job.companyCheckQuery (data.prop "company_handle"),
            { text := "INSERT INTO jobs\n            (title, salary, equity, company_handle)\n            VALUES ($1, $2, $3, $4)\n            RETURNING id, title, salary, equity, company_handle"
              values := [data.prop "title", salary, equity, data.prop "company_handle"] }]) := by
  refine ⟨Job.orDefault (data.prop "salary") .null, Job.orDefault (data.prop "equity") .null,
    ?_, ?_, ?_, ?_, ?_, ?_⟩
  · rintro (h | h) <;> simp [Job.orDefault, JsObject.prop, h]
  · intro v h hv
    simp [Job.orDefault, JsObject.prop, h, hv]
  · rintro (h | h) <;> simp [Job.orDefault, JsObject.prop, h]
  · intro v h hv
    simp [Job.orDefault, JsObject.prop, h, hv]
  · intro σ1 h
    simp [Job.create, Db.run, h]
  · intro row rows σ1 h
    simp only [Job.create, Db.run, h, List.head?_cons]
    cases hq : (db.query σ1 (Job.insertQuery (data.prop "title")
        (Job.orDefault (data.prop "salary") .null) (Job.orDefault (data.prop "equity") .null)
        (data.prop "company_handle"))).1 <;>
      simp [hq, Job.insertQuery]

/-- C7 on `oneCompanyDb`: the job of `job.test.js` with the unknown handle
`none` is rejected after the check alone, and a job for `c2` that omits salary
and equity is inserted with `null` for both. -/
theorem Job_create_checks_company_witness :
    Job.create asciiRuntime oneCompanyDb
        [("title", .string "badJob"), ("salary", .number 100), ("company_handle", .string "none")]
        { state := (), issued := [] }
      = (.error (.badRequest "Company doesn\x27t exist: none"),
          { state := (), issued := [Job.companyCheckQuery (.string "none")] }) ∧
    (Job.create asciiRuntime oneCompanyDb [("title", .string "newjob"), ("company_handle", .string "c2")]
        { state := (), issued := [] }).2.issued
      = [Job.companyCheckQuery (.string "c2"),
          Job.insertQuery (.string "newjob") .null .null (.string "c2")] := by
  constructor
  · obtain ⟨_, _, _, _, _, _, h, _⟩ := Job_create_checks_company asciiRuntime oneCompanyDb
      [("title", .string "badJob"), ("salary", .number 100), ("company_handle", .string "none")]
      { state := (), issued := [] }
    exact h () rfl
  · obtain ⟨sal, eq, h1, _, h3, _, _, h⟩ := Job_create_checks_company asciiRuntime oneCompanyDb
      [("title", .string "newjob"), ("company_handle", .string "c2")]
      { state := (), issued := [] }
    have hs : sal = .null := h1 (Or.inl rfl)
    have he : eq = .null := h3 (Or.inl rfl)
    subst hs he
    exact h [("handle", .string "c2")] [] () rfl

/-! ## Filters that request nothing -/

/-- The values `undefined`, `null`, `0`, `false` and `""` are falsy. -/
theorem truthy_of_falsy_literal (v : JsValue)
    (h : v ∈ [JsValue.undefined, .null, .number 0, .bool false, .string ""]) :
    v.truthy = false := by
  simp only [List.mem_cons, List.mem_singleton, List.not_mem_nil, or_false] at h
  rcases h with h | h | h | h | h <;> subst h <;> rfl

/-- An allowed key with a falsy value only advances the index of
`Company.findAll`. -/
theorem company_filterStep_falsy (js : Runtime) (st : FilterState) (key : String) (value : JsValue)
    (hk : key ∈ ["name", "minEmployees", "maxEmployees"]) (hv : value.truthy = false) :
    Company.filterStep js st key value = .ok { st with index := st.index + 1 } := by
  simp only [List.mem_cons, List.mem_singleton, List.not_mem_nil, or_false] at hk
  rcases hk with hk | hk | hk <;> subst hk <;>
    simp [Company.filterStep, openPredicate, hv]

/-- An allowed key with a falsy value only advances the index of `Job.findAll`. -/
theorem job_filterStep_falsy (js : Runtime) (st : FilterState) (key : String) (value : JsValue)
    (hk : key ∈ ["title", "minSalary", "hasEquity"]) (hv : value.truthy = false) :
    Job.filterStep js st key value = .ok { st with index := st.index + 1 } := by
  simp only [List.mem_cons, List.mem_singleton, List.not_mem_nil, or_false] at hk
  rcases hk with hk | hk | hk <;> subst hk <;>
    simp [Job.filterStep, openPredicate, hv]

/-- Over allowed keys with falsy values the loop of `Company.findAll` leaves
the statement and the values as they were. -/
theorem company_filterLoop_falsy (js : Runtime) (filter : JsObject) (st : FilterState)
    (hk : ∀ e ∈ filter, e.1 ∈ ["name", "minEmployees", "maxEmployees"])
    (hv : ∀ e ∈ filter, e.2.truthy = false) :
    Company.filterLoop js filter st = .ok { st with index := st.index + filter.length } := by
  induction filter generalizing st with
  | nil => rfl
  | cons e rest ih =>
    obtain ⟨key, value⟩ := e
    have h1 := company_filterStep_falsy js st key value (hk (key, value) (by simp))
      (hv (key, value) (by simp))
    simp only [Company.filterLoop, h1]
    rw [ih _ (fun e he => hk e (List.mem_cons_of_mem _ he))
      (fun e he => hv e (List.mem_cons_of_mem _ he))]
    simp only [List.length_cons]
    congr 2
    omega

/-- Over allowed keys with falsy values the loop of `Job.findAll` leaves the
statement and the values as they were. -/
theorem job_filterLoop_falsy (js : Runtime) (filter : JsObject) (st : FilterState)
    (hk : ∀ e ∈ filter, e.1 ∈ ["title", "minSalary", "hasEquity"])
    (hv : ∀ e ∈ filter, e.2.truthy = false) :
    Job.filterLoop js filter st = .ok { st with index := st.index + filter.length } := by
  induction filter generalizing st with
  | nil => rfl
  | cons e rest ih =>
    obtain ⟨key, value⟩ := e
    have h1 := job_filterStep_falsy js st key value (hk (key, value) (by simp))
      (hv (key, value) (by simp))
    simp only [Job.filterLoop, h1]
    rw [ih _ (fun e he => hk e (List.mem_cons_of_mem _ he))
      (fun e he => hv e (List.mem_cons_of_mem _ he))]
    simp only [List.length_cons]
    congr 2
    omega

set_option maxRecDepth 100000 in
/-- The SELECT of `Company.findAll` with the empty clause has no `WHERE`. -/
theorem company_findAllText_empty_no_where :
    occursIn "WHERE".data (Company.findAllText "").data = false := by
  decide

set_option maxRecDepth 100000 in
/-- The SELECT of `Job.findAll` with the empty clause has no `WHERE`. -/
theorem job_findAllText_empty_no_where :
    occursIn "WHERE".data (Job.findAllText "").data = false := by
  decide

/-- C8: for a filter whose values are all among `undefined`, `null`, `0`,
`false`, `""` (the empty filter included), if its keys are all allowed for
companies then the loop of `Company.findAll` ends with the clause `""` and the
value list `[]` and the one statement issued is the SELECT with the empty
clause and no parameter, and likewise for `Job.findAll` if its keys are all
allowed for jobs; the text of neither SELECT contains `WHERE`. -/
theorem findAll_falsy_filter_builds_empty_clause {σ : Type} (js : Runtime) (db : Db σ)
    (filter : JsObject) (s : Session σ)
    (hfalsy : ∀ e ∈ filter,
      e.2 ∈ [JsValue.undefined, .null, .number 0, .bool false, .string ""]) :
    ((∀ e ∈ filter, e.1 ∈ ["name", "minEmployees", "maxEmployees"]) →
      (∃ st, Company.filterLoop js filter FilterState.init = .ok st ∧
        st.filterStatement = "" ∧ st.sqlVariables = []) ∧
      (Company.findAll js db filter s).2.issued
        = s.issued ++ [{ text := Company.findAllText "", values := [] }]) ∧
    ((∀ e ∈ filter, e.1 ∈ ["title", "minSalary", "hasEquity"]) →
      (∃ st, Job.filterLoop js filter FilterState.init = .ok st ∧
        st.filterStatement = "" ∧ st.sqlVariables = []) ∧
      (Job.findAll js db filter s).2.issued
        = s.issued ++ [{ text := Job.findAllText "", values := [] }]) ∧
    occursIn "WHERE".data (Company.findAllText "").data = false ∧
    occursIn "WHERE".data (Job.findAllText "").data = false := by
  have hv : ∀ e ∈ filter, e.2.truthy = false := fun e he =>
    truthy_of_falsy_literal e.2 (hfalsy e he)
  refine ⟨fun hk => ?_, fun hk => ?_, company_findAllText_empty_no_where,
    job_findAllText_empty_no_where⟩
  · have hl := company_filterLoop_falsy js filter FilterState.init hk hv
    exact ⟨⟨_, hl, rfl, rfl⟩, by rw [company_findAll_of_loop_ok js db filter s _ hl]; rfl⟩
  · have hl := job_filterLoop_falsy js filter FilterState.init hk hv
    exact ⟨⟨_, hl, rfl, rfl⟩, by rw [job_findAll_of_loop_ok js db filter s _ hl]; rfl⟩

/-- C8 at the filters `{name: "", minEmployees: 0}` and
`{title: undefined, hasEquity: false}`. -/
theorem findAll_falsy_filter_builds_empty_clause_witness :
    (Company.findAll asciiRuntime emptyDb [("name", .string ""), ("minEmployees", .number 0)]
        { state := (), issued := [] }).2.issued
      = [{ text := Company.findAllText "", values := [] }] ∧
    (Job.findAll asciiRuntime emptyDb [("title", .undefined), ("hasEquity", .bool false)]
        { state := (), issued := [] }).2.issued
      = [{ text := Job.findAllText "", values := [] }] :=
  ⟨((findAll_falsy_filter_builds_empty_clause asciiRuntime emptyDb
      [("name", .string ""), ("minEmployees", .number 0)] { state := (), issued := [] }
      (by simp)).1 (by simp)).2,
    ((findAll_falsy_filter_builds_empty_clause asciiRuntime emptyDb
      [("title", .undefined), ("hasEquity", .bool false)] { state := (), issued := [] }
      (by simp)).2.1 (by simp)).2⟩

/-! ## Single filters of `Company.findAll` -/

/-- C9: for every non-empty string `name`, the loop of
`Company.findAll({name})` ends with the clause `WHERE LOWER(name) LIKE $1` and
the value list `["%" + name.toLowerCase() + "%"]`, where `toLowerCase` is the
lowercasing of the runtime, whatever it does, and the one statement issued is
the SELECT written out below, which carries that clause, with that list. -/
theorem Company_findAll_name_filter {σ : Type} (js : Runtime) (db : Db σ) (s : Session σ)
    (name : String) (h : name ≠ "") :
    Company.filterLoop js [("name", .string name)] FilterState.init
        = .ok { filterStatement := "WHERE LOWER(name) LIKE $1"
                sqlVariables := [.string ("%" ++ js.toLowerCase name ++ "%")]
                index := 2 } ∧
      (Company.findAll js db [("name", .string name)] s).2.issued
        = s.issued ++ [{ text := "SELECT handle,\n                  name,\n                  description,\n                  num_employees AS \"numEmployees\",\n                  logo_url AS \"logoUrl\"\n           FROM companies\n           WHERE LOWER(name) LIKE $1\n           ORDER BY name"
                         values := [.string ("%" ++ js.toLowerCase name ++ "%")] }] := by
  have hl : Company.filterLoop js [("name", .string name)] FilterState.init
      = .ok { filterStatement := "WHERE LOWER(name) LIKE $1"
              sqlVariables := [.string ("%" ++ js.toLowerCase name ++ "%")]
              index := 2 } := by
    simp [Company.filterLoop, Company.filterStep, openPredicate, FilterState.init,
      JsValue.truthy, h]
    rfl
  refine ⟨hl, ?_⟩
  rw [company_findAll_of_loop_ok js db _ s _ hl]
  rfl

/-- C9 at the name `C1` of the example in the spec, on a runtime that
lowercases ASCII letters: the bound value is `%c1%`. -/
theorem Company_findAll_name_filter_witness :
    "C1" ≠ "" ∧
    Company.filterLoop asciiRuntime [("name", .string "C1")] FilterState.init
      = .ok { filterStatement := "WHERE LOWER(name) LIKE $1"
              sqlVariables := [.string "%c1%"]
              index := 2 } :=
  ⟨by decide, (Company_findAll_name_filter asciiRuntime emptyDb { state := (), issued := [] } "C1"
    (by decide)).1⟩

/-- C10: for all truthy `a` and `b`, whatever their order, the loop of
`Company.findAll({minEmployees: a, maxEmployees: b})` ends without an error,
with the clause `WHERE num_employees >= $1 AND num_employees <= $2` and the
value list `[a, b]`; the function issues that one statement and its outcome is
the database's answer to it. -/
theorem Company_findAll_employee_range {σ : Type} (js : Runtime) (db : Db σ) (s : Session σ)
    (a b : JsValue) (ha : a.truthy = true) (hb : b.truthy = true) :
    Company.filterLoop js [("minEmployees", a), ("maxEmployees", b)] FilterState.init
        = .ok { filterStatement := "WHERE num_employees >= $1 AND num_employees <= $2"
                sqlVariables := [a, b]
                index := 3 } ∧
      Company.findAll js db [("minEmployees", a), ("maxEmployees", b)] s
        = ((db.query s.state
              { text := Company.findAllText "WHERE num_employees >= $1 AND num_employees <= $2"
                values := [a, b] }).1.map FindAllResult.rows,
            { state := (db.query s.state
                { text := Company.findAllText "WHERE num_employees >= $1 AND num_employees <= $2"
                  values := [a, b] }).2
              issued := s.issued ++
                [{ text := Company.findAllText "WHERE num_employees >= $1 AND num_employees <= $2"
                   values := [a, b] }] }) := by
  have hl : Company.filterLoop js [("minEmployees", a), ("maxEmployees", b)] FilterState.init
      = .ok { filterStatement := "WHERE num_employees >= $1 AND num_employees <= $2"
              sqlVariables := [a, b]
              index := 3 } := by
    simp [Company.filterLoop, Company.filterStep, openPredicate, FilterState.init, ha, hb]
    rfl
  exact ⟨hl, by rw [company_findAll_of_loop_ok js db _ s _ hl]⟩

/-- C10 at the contradictory range `{minEmployees: 5, maxEmployees: 2}`: the
function resolves with the rows the database returns. -/
theorem Company_findAll_employee_range_witness :
    (JsValue.number 5).truthy = true ∧ (JsValue.number 2).truthy = true ∧
    Company.findAll asciiRuntime emptyDb [("minEmployees", .number 5), ("maxEmployees", .number 2)]
        { state := (), issued := [] }
      = (.ok (.rows []),
          { state := ()
            issued := [{ text := Company.findAllText
                           "WHERE num_employees >= $1 AND num_employees <= $2"
                         values := [.number 5, .number 2] }] }) :=
  ⟨rfl, rfl, (Company_findAll_employee_range asciiRuntime emptyDb { state := (), issued := [] }
    (.number 5) (.number 2) rfl rfl).2⟩

/-! ## The `hasEquity` filter -/

/-- C11: for every truthy `v`, the loop of `Job.findAll({hasEquity: v})` ends
with the clause `WHERE equity > 0` and the empty value list, the one statement
issued carries that clause and no parameter, and the clause contains no
placeholder. -/
theorem Job_findAll_hasEquity_filter {σ : Type} (js : Runtime) (db : Db σ) (s : Session σ)
    (v : JsValue) (h : v.truthy = true) :
    Job.filterLoop js [("hasEquity", v)] FilterState.init
        = .ok { filterStatement := "WHERE equity > 0", sqlVariables := [], index := 2 } ∧
      (Job.findAll js db [("hasEquity", v)] s).2.issued
        = s.issued ++ [{ text := Job.findAllText "WHERE equity > 0", values := [] }] ∧
      placeholders "WHERE equity > 0" = [] := by
  have hl : Job.filterLoop js [("hasEquity", v)] FilterState.init
      = .ok { filterStatement := "WHERE equity > 0", sqlVariables := [], index := 2 } := by
    simp [Job.filterLoop, Job.filterStep, openPredicate, FilterState.init, h]
  exact ⟨hl, by rw [job_findAll_of_loop_ok js db _ s _ hl], rfl⟩

/-- C11 at `{hasEquity: true}`, the example of the spec. -/
theorem Job_findAll_hasEquity_filter_witness :
    (JsValue.bool true).truthy = true ∧
    (Job.findAll asciiRuntime emptyDb [("hasEquity", .bool true)] { state := (), issued := [] }).2.issued
      = [{ text := Job.findAllText "WHERE equity > 0", values := [] }] :=
  ⟨rfl, (Job_findAll_hasEquity_filter asciiRuntime emptyDb { state := (), issued := [] } (.bool true)
    rfl).2.1⟩

/-! ## No statement on an unknown key -/

/-- With a key outside the allowed set anywhere in the filter, the loop of
`Company.findAll` leaves the function early, from any loop state. -/
theorem company_filterLoop_invalid_key (js : Runtime) (filter : JsObject) (st : FilterState)
    (h : ∃ e ∈ filter, e.1 ∉ ["name", "minEmployees", "maxEmployees"]) :
    ∃ x, Company.filterLoop js filter st = .error x := by
  induction filter generalizing st with
  | nil => simp at h
  | cons e rest ih =>
    obtain ⟨key, value⟩ := e
    by_cases hk : key ∈ ["name", "minEmployees", "maxEmployees"]
    · have hrest : ∃ e ∈ rest, e.1 ∉ ["name", "minEmployees", "maxEmployees"] := by
        obtain ⟨e, he, hne⟩ := h
        rcases List.mem_cons.1 he with rfl | he
        · exact absurd hk hne
        · exact ⟨e, he, hne⟩
      cases hstep : Company.filterStep js st key value with
      | error x => exact ⟨x, by simp [Company.filterLoop, hstep]⟩
      | ok st' =>
        obtain ⟨x, hx⟩ := ih st' hrest
        exact ⟨x, by simp [Company.filterLoop, hstep, hx]⟩
    · simp only [List.mem_cons, List.mem_singleton, List.not_mem_nil, or_false, not_or] at hk
      exact ⟨.returned (.badRequest "Query Variables invalid"),
        by simp [Company.filterLoop, Company.filterStep, hk]⟩

/-- With a key outside the allowed set anywhere in the filter, the loop of
`Job.findAll` leaves the function early, from any loop state. -/
theorem job_filterLoop_invalid_key (js : Runtime) (filter : JsObject) (st : FilterState)
    (h : ∃ e ∈ filter, e.1 ∉ ["title", "minSalary", "hasEquity"]) :
    ∃ x, Job.filterLoop js filter st = .error x := by
  induction filter generalizing st with
  | nil => simp at h
  | cons e rest ih =>
    obtain ⟨key, value⟩ := e
    by_cases hk : key ∈ ["title", "minSalary", "hasEquity"]
    · have hrest : ∃ e ∈ rest, e.1 ∉ ["title", "minSalary", "hasEquity"] := by
        obtain ⟨e, he, hne⟩ := h
        rcases List.mem_cons.1 he with rfl | he
        · exact absurd hk hne
        · exact ⟨e, he, hne⟩
      cases hstep : Job.filterStep js st key value with
      | error x => exact ⟨x, by simp [Job.filterLoop, hstep]⟩
      | ok st' =>
        obtain ⟨x, hx⟩ := ih st' hrest
        exact ⟨x, by simp [Job.filterLoop, hstep, hx]⟩
    · simp only [List.mem_cons, List.mem_singleton, List.not_mem_nil, or_false, not_or] at hk
      exact ⟨.returned (.badRequest "Query Variables invalid"),
        by simp [Job.filterLoop, Job.filterStep, hk]⟩

/-- C13: for every filter that contains a key outside the allowed set, at
whatever position, `Company.findAll` and `Job.findAll` leave the session as it
was, for every database: the database state is untouched and no statement is
added to the statements issued. -/
theorem findAll_invalid_key_issues_no_query {σ : Type} (js : Runtime)
    (db : Db σ) (filter : JsObject)
    (s : Session σ) :
    ((∃ e ∈ filter, e.1 ∉ ["name", "minEmployees", "maxEmployees"]) →
      (Company.findAll js db filter s).2 = s ∧
        (Company.findAll js db filter s).2.issued = s.issued) ∧
    ((∃ e ∈ filter, e.1 ∉ ["title", "minSalary", "hasEquity"]) →
      (Job.findAll js db filter s).2 = s ∧
        (Job.findAll js db filter s).2.issued = s.issued) := by
  constructor
  · intro h
    obtain ⟨x, hx⟩ := company_filterLoop_invalid_key js filter FilterState.init h
    have : (Company.findAll js db filter s).2 = s := by
      unfold Company.findAll
      rw [hx]
      cases x <;> rfl
    exact ⟨this, by rw [this]⟩
  · intro h
    obtain ⟨x, hx⟩ := job_filterLoop_invalid_key js filter FilterState.init h
    have : (Job.findAll js db filter s).2 = s := by
      unfold Job.findAll
      rw [hx]
      cases x <;> rfl
    exact ⟨this, by rw [this]⟩

/-- C13 at `{name: "c1", color: "red"}` and `{hasEquity: true, color: "red"}`,
where valid keys precede the unknown one. -/
theorem findAll_invalid_key_issues_no_query_witness :
    (Company.findAll asciiRuntime emptyDb [("name", .string "c1"), ("color", .string "red")]
        { state := (), issued := [] }).2.issued = [] ∧
    (Job.findAll asciiRuntime emptyDb [("hasEquity", .bool true), ("color", .string "red")]
        { state := (), issued := [] }).2.issued = [] :=
  ⟨((findAll_invalid_key_issues_no_query asciiRuntime emptyDb
      [("name", .string "c1"), ("color", .string "red")] { state := (), issued := [] }).1
      ⟨("color", .string "red"), by simp, by simp⟩).2,
    ((findAll_invalid_key_issues_no_query asciiRuntime emptyDb
      [("hasEquity", .bool true), ("color", .string "red")] { state := (), issued := [] }).2
      ⟨("color", .string "red"), by simp, by simp⟩).2⟩

/-! ## Decimal text of an index -/

/-- A digit below ten is written as the character of that value. -/
theorem digitChar_value (d : Nat) (h : d < 10) :
    (Nat.digitChar d).toNat - 48 = d ∧ (Nat.digitChar d).isDigit = true := by
  interval_cases d <;> exact ⟨by rfl, by rfl⟩

/-- Appending a digit multiplies the value by ten and adds the digit. -/
theorem digitsValue_concat (ds : List Char) (c : Char) :
    digitsValue (ds ++ [c]) = 10 * digitsValue ds + (c.toNat - 48) := by
  simp [digitsValue, List.foldl_append]

/-- With enough fuel, the digit loop behind `toString` puts in front of its
accumulator a non-empty list of decimal digits whose value is the number. -/
theorem toDigitsCore_decimal (fuel n : Nat) (acc : List Char) (h : n < fuel) :
    ∃ ds : List Char, Nat.toDigitsCore 10 fuel n acc = ds ++ acc ∧ ds ≠ [] ∧
      digitsValue ds = n ∧ ∀ c ∈ ds, c.isDigit = true := by
  induction fuel generalizing n acc with
  | zero => omega
  | succ fuel ih =>
    have hd := digitChar_value (n % 10) (Nat.mod_lt n (by omega))
    by_cases h0 : n / 10 = 0
    · refine ⟨[Nat.digitChar (n % 10)], by simp [Nat.toDigitsCore, h0], by simp, ?_, ?_⟩
      · have hn : n % 10 = n := Nat.mod_eq_of_lt (by omega)
        have e : digitsValue [Nat.digitChar (n % 10)]
            = (Nat.digitChar (n % 10)).toNat - 48 := by
          simp [digitsValue]
        rw [e, hd.1]
        exact hn
      · simp [hd.2]
    · obtain ⟨ds, h1, _, h3, h4⟩ := ih (n / 10) (Nat.digitChar (n % 10) :: acc) (by omega)
      refine ⟨ds ++ [Nat.digitChar (n % 10)], by simp [Nat.toDigitsCore, h0, h1], by simp,
        ?_, ?_⟩
      · rw [digitsValue_concat, h3, hd.1]; omega
      · intro c hc
        rcases List.mem_append.1 hc with hc | hc
        · exact h4 c hc
        · simp at hc; simp [hc, hd.2]

/-- The text `toString n` of an index is a non-empty list of decimal digits
whose value is `n`. -/
theorem toString_data_decimal (n : Nat) :
    (toString n).data ≠ [] ∧ digitsValue (toString n).data = n ∧
      ∀ c ∈ (toString n).data, c.isDigit = true := by
  obtain ⟨ds, h1, h2, h3, h4⟩ := toDigitsCore_decimal (n + 1) n [] (by omega)
  have : (toString n).data = ds := by
    show (Nat.repr n).data = ds
    simp [Nat.repr, Nat.toDigits, h1, List.asString]
  rw [this]
  exact ⟨h2, h3, h4⟩

/-- Different indices have different texts. -/
theorem toString_nat_injective (a b : Nat) (h : toString a = toString b) : a = b := by
  have ha := (toString_data_decimal a).2.1
  rw [h, (toString_data_decimal b).2.1] at ha
  exact ha.symm

/-! ## Placeholders of a concatenated text -/

/-- Characters other than `$` in front of a text do not change its
placeholders. -/
theorem scanPlaceholders_skip (xs ys : List Char) (h : ∀ c ∈ xs, c ≠ '$') :
    scanPlaceholders (xs ++ ys) none = scanPlaceholders ys none := by
  induction xs with
  | nil => rfl
  | cons x xs ih =>
    have hx : x ≠ '$' := h x (by simp)
    simp only [List.cons_append, scanPlaceholders, hx, if_false]
    exact ih (fun c hc => h c (List.mem_cons_of_mem _ hc))

/-- A character that is neither a digit nor `$` ends whatever placeholder the
scan is in: the placeholders of the two sides are found independently. -/
theorem scanPlaceholders_break (xs : List Char) (st : Option (Option Nat)) (c : Char)
    (rest : List Char) (hd : c.isDigit = false) (hc : c ≠ '$') :
    scanPlaceholders (xs ++ c :: rest) st
      = scanPlaceholders xs st ++ scanPlaceholders rest none := by
  induction xs generalizing st with
  | nil =>
    cases st with
    | none => simp [scanPlaceholders, hc]
    | some r => simp [scanPlaceholders, hd, hc]
  | cons x xs ih =>
    cases st with
    | none =>
      by_cases hx : x = '$'
      · simp only [List.cons_append, scanPlaceholders, hx, if_true]
        exact ih _
      · simp only [List.cons_append, scanPlaceholders, hx, if_false]
        exact ih _
    | some r =>
      by_cases hxd : x.isDigit = true
      · simp only [List.cons_append, scanPlaceholders, hxd, if_true]
        exact ih _
      · by_cases hx : x = '$'
        · simp only [List.cons_append, scanPlaceholders, hxd, hx, if_true]
          simp [ih]
        · simp only [List.cons_append, scanPlaceholders, hxd, hx, if_false]
          simp [ih]

/-- Digits read inside a placeholder accumulate its number. -/
theorem scanPlaceholders_digits (ds : List Char) (a : Nat) (tl : List Char)
    (h : ∀ c ∈ ds, c.isDigit = true) :
    scanPlaceholders (ds ++ tl) (some (some a))
      = scanPlaceholders tl (some (some (ds.foldl (fun acc c => 10 * acc + (c.toNat - 48)) a))) := by
  induction ds generalizing a with
  | nil => rfl
  | cons d ds ih =>
    have hd : d.isDigit = true := h d (by simp)
    simp only [List.cons_append, scanPlaceholders, hd, if_true, List.foldl_cons]
    exact ih _ (fun c hc => h c (List.mem_cons_of_mem _ hc))

/-- The text `$` followed by an index and by a character that is neither a
digit nor `$` holds that index as its first placeholder. -/
theorem scanPlaceholders_dollar_index (m : Nat) (c : Char) (rest : List Char)
    (hd : c.isDigit = false) (hc : c ≠ '$') :
    scanPlaceholders ('$' :: ((toString m).data ++ c :: rest)) none
      = m :: scanPlaceholders rest none := by
  obtain ⟨hne, hval, hdig⟩ := toString_data_decimal m
  cases hds : (toString m).data with
  | nil => exact absurd hds hne
  | cons d ds =>
    rw [hds] at hval hdig
    have hd0 : d.isDigit = true := hdig d (by simp)
    have hds' : ∀ c ∈ ds, c.isDigit = true := fun c hc => hdig c (List.mem_cons_of_mem _ hc)
    simp only [scanPlaceholders, if_true, List.cons_append, hd0, List.append_eq]
    rw [scanPlaceholders_digits ds _ _ hds']
    simp only [scanPlaceholders, hd, hc, if_false, emitPlaceholder]
    have : List.foldl (fun acc c => 10 * acc + (c.toNat - 48)) (d.toNat - 48) ds = m := by
      rw [← hval]
      simp [digitsValue]
    simp [this]

/-- The placeholders of `head ++ setCols ++ mid ++ "$<m>" ++ tail`, where
`head`, `mid` and `tail` hold no `$` and `mid` and `tail` start with a blank,
are those of `setCols` followed by `m`. -/
theorem placeholders_update_text (head setCols mid tail : String) (m : Nat)
    (mid' tail' : List Char)
    (hhead : ∀ c ∈ head.data, c ≠ '$')
    (hmid : mid.data = ' ' :: mid') (hmid' : ∀ c ∈ mid', c ≠ '$')
    (htail : tail.data = ' ' :: tail') (htail' : ∀ c ∈ tail', c ≠ '$') :
    placeholders (head ++ setCols ++ mid ++ ("$" ++ toString m) ++ tail)
      = placeholders setCols ++ [m] := by
  have hdollar : ("$" : String).data = ['$'] := rfl
  simp only [placeholders, String.data_append, List.append_assoc, hmid, htail, hdollar,
    List.cons_append, List.nil_append]
  rw [scanPlaceholders_skip _ _ hhead]
  rw [scanPlaceholders_break _ _ ' ' _ (by decide) (by decide)]
  rw [scanPlaceholders_skip _ _ hmid']
  rw [scanPlaceholders_dollar_index m ' ' _ (by decide) (by decide)]
  have := scanPlaceholders_skip tail' [] htail'
  rw [List.append_nil] at this
  rw [this]
  rfl

/-! ## The statement issued by `update` -/

/-- The statement `Company.update` issues once `sqlForPartialUpdate` has
returned. -/
theorem company_update_issued {σ : Type} (js : Runtime)
    (db : Db σ) (handle : JsValue) (data : JsObject)
    (s : Session σ) (r : SetClause)
    (h : sqlForPartialUpdate data [("numEmployees", "num_employees"), ("logoUrl", "logo_url")]
      = .ok r) :
    (Company.update js db handle data s).2.issued =
      s.issued ++ [{ text := Company.updateText r.setCols ("$" ++ toString (r.values.length + 1))
                     values := r.values ++ [handle] }] := by
  unfold Company.update Db.run
  rw [h]
  dsimp only
  generalize db.query s.state _ = res
  rcases res with ⟨_ | rows, st⟩
  · rfl
  · cases rows <;> rfl

/-- The statement `Job.update` issues once `sqlForPartialUpdate` has returned. -/
theorem job_update_issued {σ : Type} (js : Runtime) (db : Db σ) (id : JsValue) (data : JsObject)
    (s : Session σ) (r : SetClause)
    (h : sqlForPartialUpdate data [("title", "title"), ("salary", "salary"), ("equity", "equity")]
      = .ok r) :
    (Job.update js db id data s).2.issued =
      s.issued ++ [{ text := Job.updateText r.setCols ("$" ++ toString (r.values.length + 1))
                     values := r.values ++ [id] }] := by
  unfold Job.update Db.run
  rw [h]
  dsimp only
  generalize db.query s.state _ = res
  rcases res with ⟨_ | rows, st⟩
  · rfl
  · cases rows <;> rfl

set_option maxRecDepth 100000 in
/-- The text of the UPDATE of `Company.update` for a placeholder `$m`, written
out, and its placeholders: those of the SET clause followed by `m`. -/
theorem company_updateText_placeholders (setCols : String) (m : Nat) :
    Company.updateText setCols ("$" ++ toString m)
        = "UPDATE companies \n                      SET " ++ setCols
          ++ " \n                      WHERE handle = $" ++ toString m
          ++ " \n                      RETURNING handle, \n                                name, \n                                description, \n                                num_employees AS \"numEmployees\", \n                                logo_url AS \"logoUrl\"" ∧
      placeholders (Company.updateText setCols ("$" ++ toString m))
        = placeholders setCols ++ [m] := by
  constructor
  · have hm : (" \n                      WHERE handle = $" : String)
        = " \n                      WHERE handle = " ++ "$" := by decide
    rw [hm]
    simp only [Company.updateText, String.append_assoc]
  · exact placeholders_update_text _ setCols _ _ m
      (" \n                      WHERE handle = " : String).data.tail
      (" \n                      RETURNING handle, \n                                name, \n                                description, \n                                num_employees AS \"numEmployees\", \n                                logo_url AS \"logoUrl\"" : String).data.tail
      (by decide) (by decide) (by decide) (by decide) (by decide)

set_option maxRecDepth 100000 in
/-- The text of the UPDATE of `Job.update` for a placeholder `$m`, written
out, and its placeholders: those of the SET clause followed by `m`. -/
theorem job_updateText_placeholders (setCols : String) (m : Nat) :
    Job.updateText setCols ("$" ++ toString m)
        = "UPDATE jobs \n                      SET " ++ setCols
          ++ " \n                      WHERE id = $" ++ toString m
          ++ " \n                      RETURNING id, \n                                title, \n                                salary, \n                                equity,\n                                company_handle" ∧
      placeholders (Job.updateText setCols ("$" ++ toString m))
        = placeholders setCols ++ [m] := by
  constructor
  · have hm : (" \n                      WHERE id = $" : String)
        = " \n                      WHERE id = " ++ "$" := by decide
    rw [hm]
    simp only [Job.updateText, String.append_assoc]
  · exact placeholders_update_text _ setCols _ _ m
      (" \n                      WHERE id = " : String).data.tail
      (" \n                      RETURNING id, \n                                title, \n                                salary, \n                                equity,\n                                company_handle" : String).data.tail
      (by decide) (by decide) (by decide) (by decide) (by decide)

/-- C14: whenever `sqlForPartialUpdate` returns `{setCols, values}` for the
data, with `n` the length of `values`, `Company.update` and `Job.update` issue
exactly one statement: the UPDATE written out below, whose SET clause is
`setCols`, whose WHERE clause compares the key column with the placeholder
`$(n+1)`, and whose parameter list is `values` followed by the handle or id.
The placeholders of that text are those of `setCols` followed by `n + 1`, so
they are exactly `$1..$(n+1)`, each once, when the SET placeholders are
`$1..$n`. The parameter list has length `n + 1`, holds the key at position `n`
and `values` unchanged in its first `n` positions; `n + 1` is none of `1..n`
and the text `$(n+1)` differs from the text `$i` for every `1 ≤ i ≤ n`. -/
theorem update_key_placeholder_follows_values {σ : Type} (js : Runtime) (db : Db σ)
    (key : JsValue) (data : JsObject) (s : Session σ) :
    (∀ r : SetClause,
      sqlForPartialUpdate data [("numEmployees", "num_employees"), ("logoUrl", "logo_url")]
          = .ok r →
        ∃ text : String,
          text = "UPDATE companies \n                      SET " ++ r.setCols
              ++ " \n                      WHERE handle = $"
              ++ toString (r.values.length + 1)
              ++ " \n                      RETURNING handle, \n                                name, \n                                description, \n                                num_employees AS \"numEmployees\", \n                                logo_url AS \"logoUrl\"" ∧
          (Company.update js db key data s).2.issued =
            s.issued ++ [{ text := text, values := r.values ++ [key] }] ∧
          placeholders text = placeholders r.setCols ++ [r.values.length + 1] ∧
          (placeholders r.setCols = List.range' 1 r.values.length →
            placeholders text = List.range' 1 (r.values.length + 1) ∧
              (placeholders text).Nodup) ∧
          (r.values ++ [key]).length = r.values.length + 1 ∧
          (r.values ++ [key])[r.values.length]? = some key ∧
          (r.values ++ [key]).take r.values.length = r.values ∧
          r.values.length + 1 ∉ List.range' 1 r.values.length ∧
          ∀ i : Nat, 1 ≤ i → i ≤ r.values.length →
            "$" ++ toString (r.values.length + 1) ≠ "$" ++ toString i) ∧
    (∀ r : SetClause,
      sqlForPartialUpdate data [("title", "title"), ("salary", "salary"), ("equity", "equity")]
          = .ok r →
        ∃ text : String,
          text = "UPDATE jobs \n                      SET " ++ r.setCols
              ++ " \n                      WHERE id = $"
              ++ toString (r.values.length + 1)
              ++ " \n                      RETURNING id, \n                                title, \n                                salary, \n                                equity,\n                                company_handle" ∧
          (Job.update js db key data s).2.issued =
            s.issued ++ [{ text := text, values := r.values ++ [key] }] ∧
          placeholders text = placeholders r.setCols ++ [r.values.length + 1] ∧
          (placeholders r.setCols = List.range' 1 r.values.length →
            placeholders text = List.range' 1 (r.values.length + 1) ∧
              (placeholders text).Nodup) ∧
          (r.values ++ [key]).length = r.values.length + 1 ∧
          (r.values ++ [key])[r.values.length]? = some key ∧
          (r.values ++ [key]).take r.values.length = r.values ∧
          r.values.length + 1 ∉ List.range' 1 r.values.length ∧
          ∀ i : Nat, 1 ≤ i → i ≤ r.values.length →
            "$" ++ toString (r.values.length + 1) ≠ "$" ++ toString i) := by
  have hne : ∀ n i : Nat, 1 ≤ i → i ≤ n → "$" ++ toString (n + 1) ≠ "$" ++ toString i := by
    intro n i _ hi heq
    have h2 : toString (n + 1) = toString i := by
      have := congrArg String.data heq
      simp only [String.data_append, List.append_cancel_left_eq] at this
      exact String.ext this
    have := toString_nat_injective (n + 1) i h2
    omega
  constructor
  · intro r h
    obtain ⟨htext, hph⟩ := company_updateText_placeholders r.setCols (r.values.length + 1)
    refine ⟨_, rfl, ?_, ?_, ?_, by simp, by simp, by simp, by simp; omega,
      hne r.values.length⟩
    · rw [← htext]
      exact company_update_issued js db key data s r h
    · rw [← htext]
      exact hph
    · intro hset
      have hall : placeholders
          (Company.updateText r.setCols ("$" ++ toString (r.values.length + 1)))
          = List.range' 1 (r.values.length + 1) := by
        rw [hph, hset, List.range'_concat]
        simp [Nat.add_comm]
      rw [← htext, hall]
      exact ⟨rfl, List.nodup_range' _ _⟩
  · intro r h
    obtain ⟨htext, hph⟩ := job_updateText_placeholders r.setCols (r.values.length + 1)
    refine ⟨_, rfl, ?_, ?_, ?_, by simp, by simp, by simp, by simp; omega,
      hne r.values.length⟩
    · rw [← htext]
      exact job_update_issued js db key data s r h
    · rw [← htext]
      exact hph
    · intro hset
      have hall : placeholders
          (Job.updateText r.setCols ("$" ++ toString (r.values.length + 1)))
          = List.range' 1 (r.values.length + 1) := by
        rw [hph, hset, List.range'_concat]
        simp [Nat.add_comm]
      rw [← htext, hall]
      exact ⟨rfl, List.nodup_range' _ _⟩

/-- C14 at the update `{name: "New", numEmployees: 10}` of the company `c1`
and the update `{title: "New", salary: 10}` of the job 7: the key is bound to
`$3`, after the two values, and the placeholders of each statement are
`$1`, `$2`, `$3`. -/
theorem update_key_placeholder_follows_values_witness :
    (Company.update asciiRuntime emptyDb (.string "c1")
        [("name", .string "New"), ("numEmployees", .number 10)]
        { state := (), issued := [] }).2.issued
      = [{ text := "UPDATE companies \n                      SET \"name\"=$1, \"num_employees\"=$2 \n                      WHERE handle = $3 \n                      RETURNING handle, \n                                name, \n                                description, \n                                num_employees AS \"numEmployees\", \n                                logo_url AS \"logoUrl\""
           values := [.string "New", .number 10, .string "c1"] }] ∧
    (Job.update asciiRuntime emptyDb (.number 7) [("title", .string "New"), ("salary", .number 10)]
        { state := (), issued := [] }).2.issued
      = [{ text := "UPDATE jobs \n                      SET \"title\"=$1, \"salary\"=$2 \n                      WHERE id = $3 \n                      RETURNING id, \n                                title, \n                                salary, \n                                equity,\n                                company_handle"
           values := [.string "New", .number 10, .number 7] }] := by
  constructor
  · obtain ⟨text, htext, hissued, _⟩ :=
      (update_key_placeholder_follows_values asciiRuntime emptyDb (.string "c1")
        [("name", .string "New"), ("numEmployees", .number 10)] { state := (), issued := [] }).1
        { setCols := "\"name\"=$1, \"num_employees\"=$2"
          values := [.string "New", .number 10] } rfl
    rw [hissued, htext]
    rfl
  · obtain ⟨text, htext, hissued, _⟩ :=
      (update_key_placeholder_follows_values asciiRuntime emptyDb (.number 7)
        [("title", .string "New"), ("salary", .number 10)] { state := (), issued := [] }).2
        { setCols := "\"title\"=$1, \"salary\"=$2"
          values := [.string "New", .number 10] } rfl
    rw [hissued, htext]
    rfl

set_option maxRecDepth 100000 in
/-- The placeholders of the two statements of the example above. -/
theorem update_placeholders_example :
    placeholders (Company.updateText "\"name\"=$1, \"num_employees\"=$2" "$3") = [1, 2, 3] ∧
      placeholders (Job.updateText "\"title\"=$1, \"salary\"=$2" "$3") = [1, 2, 3] := by
  decide

/-! ## The shape of the clause built by `findAll` -/

/-- Joining one more string appends the separator and the string. -/
theorem intercalate_go_concat (acc sep p : String) (l : List String) :
    String.intercalate.go acc sep (l ++ [p]) = String.intercalate.go acc sep l ++ sep ++ p := by
  induction l generalizing acc with
  | nil => simp [String.intercalate.go]
  | cons a l ih => simp [String.intercalate.go, ih]

/-- The clause of a single predicate. -/
theorem whereClause_singleton (p : String) : whereClause [p] = "WHERE " ++ p := by
  simp [whereClause, String.intercalate, String.intercalate.go]

/-- One more predicate after at least one is appended behind `" AND "`. -/
theorem whereClause_concat (a : String) (l : List String) (p : String) :
    whereClause (a :: l ++ [p]) = whereClause (a :: l) ++ " AND " ++ p := by
  simp [whereClause, String.intercalate, intercalate_go_concat, String.append_assoc]

/-- The clause of at least one predicate starts with `W`. -/
theorem whereClause_cons_data (a : String) (l : List String) :
    ∃ t, (whereClause (a :: l)).data = 'W' :: t := by
  refine ⟨"HERE ".data ++ (" AND ".intercalate (a :: l)).data, ?_⟩
  simp [whereClause]

/-- The clause of at least one predicate is not empty. -/
theorem whereClause_cons_ne_empty (a : String) (l : List String) :
    whereClause (a :: l) ≠ "" := by
  intro h
  obtain ⟨t, ht⟩ := whereClause_cons_data a l
  rw [h] at ht
  simp at ht

/-- The two opening statements of the loop followed by a predicate extend the
clause of the predicates emitted so far by that predicate. -/
theorem openPredicate_whereClause (ps : List String) (value : JsValue) (p : String)
    (hv : value.truthy = true) :
    openPredicate (whereClause ps) value ++ p = whereClause (ps ++ [p]) := by
  cases ps with
  | nil =>
    rw [List.nil_append, whereClause_singleton]
    simp [openPredicate, hv, whereClause]
  | cons a l =>
    have hne := whereClause_cons_ne_empty a l
    rw [whereClause_concat]
    simp [openPredicate, hv, hne]

/-- A falsy value leaves the statement as it is. -/
theorem openPredicate_falsy (fs : String) (value : JsValue) (hv : value.truthy = false) :
    openPredicate fs value = fs := by
  simp [openPredicate, hv]

/-- One iteration of `Company.findAll` on an allowed key with a truthy value
(a string under `name`) appends the predicate of that key at the current
index. -/
theorem company_filterStep_truthy (js : Runtime) (st : FilterState) (key : String) (value : JsValue)
    (hk : key ∈ ["name", "minEmployees", "maxEmployees"]) (hv : value.truthy = true)
    (hs : key = "name" → ∃ v, value = .string v) :
    ∃ vars, Company.filterStep js st key value =
      .ok { filterStatement :=
              openPredicate st.filterStatement value ++ Company.predicateText key st.index
            sqlVariables := vars
            index := st.index + 1 } := by
  simp only [List.mem_cons, List.mem_singleton, List.not_mem_nil, or_false] at hk
  rcases hk with hk | hk | hk <;> subst hk
  · obtain ⟨v, rfl⟩ := hs rfl
    exact ⟨st.sqlVariables ++ [.string ("%" ++ js.toLowerCase v ++ "%")],
      by simp [Company.filterStep, Company.predicateText, hv]⟩
  · exact ⟨st.sqlVariables ++ [value], by simp [Company.filterStep, Company.predicateText, hv]⟩
  · exact ⟨st.sqlVariables ++ [value], by simp [Company.filterStep, Company.predicateText, hv]⟩

/-- One iteration of `Job.findAll` on an allowed key with a truthy value (a
string under `title`) appends the predicate of that key at the current index. -/
theorem job_filterStep_truthy (js : Runtime) (st : FilterState) (key : String) (value : JsValue)
    (hk : key ∈ ["title", "minSalary", "hasEquity"]) (hv : value.truthy = true)
    (hs : key = "title" → ∃ v, value = .string v) :
    ∃ vars, Job.filterStep js st key value =
      .ok { filterStatement :=
              openPredicate st.filterStatement value ++ Job.predicateText key st.index
            sqlVariables := vars
            index := st.index + 1 } := by
  simp only [List.mem_cons, List.mem_singleton, List.not_mem_nil, or_false] at hk
  rcases hk with hk | hk | hk <;> subst hk
  · obtain ⟨v, rfl⟩ := hs rfl
    exact ⟨st.sqlVariables ++ [.string ("%" ++ js.toLowerCase v ++ "%")],
      by simp [Job.filterStep, Job.predicateText, hv]⟩
  · exact ⟨st.sqlVariables ++ [value], by simp [Job.filterStep, Job.predicateText, hv]⟩
  · exact ⟨st.sqlVariables, by simp [Job.filterStep, Job.predicateText, hv]⟩

/-- Loop invariant of `Company.findAll`: the statement is the clause of the
predicates emitted so far. -/
theorem company_filterLoop_clause (js : Runtime)
    (filter : JsObject) (st : FilterState) (ps : List String)
    (hinv : st.filterStatement = whereClause ps)
    (hk : ∀ e ∈ filter, e.1 ∈ ["name", "minEmployees", "maxEmployees"])
    (hs : ∀ e ∈ filter, e.1 = "name" → e.2.truthy = true → ∃ v, e.2 = .string v) :
    ∃ st', Company.filterLoop js filter st = .ok st' ∧
      st'.filterStatement
        = whereClause (ps ++ emittedPredicates Company.predicateText filter st.index) := by
  induction filter generalizing st ps with
  | nil => exact ⟨st, rfl, by simp [emittedPredicates, hinv]⟩
  | cons e rest ih =>
    obtain ⟨key, value⟩ := e
    have hk' : ∀ e ∈ rest, e.1 ∈ ["name", "minEmployees", "maxEmployees"] :=
      fun e he => hk e (List.mem_cons_of_mem _ he)
    have hs' : ∀ e ∈ rest, e.1 = "name" → e.2.truthy = true → ∃ v, e.2 = .string v :=
      fun e he => hs e (List.mem_cons_of_mem _ he)
    cases hv : value.truthy with
    | false =>
      have h1 := company_filterStep_falsy js st key value (hk (key, value) (by simp)) hv
      obtain ⟨st', h2, h3⟩ := ih { st with index := st.index + 1 } ps hinv hk' hs'
      exact ⟨st', by simp [Company.filterLoop, h1, h2], by simp [emittedPredicates, hv, h3]⟩
    | true =>
      obtain ⟨vars, h1⟩ := company_filterStep_truthy js st key value (hk (key, value) (by simp)) hv
        (fun hn => hs (key, value) (by simp) hn hv)
      obtain ⟨st', h2, h3⟩ := ih
        { filterStatement :=
            openPredicate st.filterStatement value ++ Company.predicateText key st.index
          sqlVariables := vars
          index := st.index + 1 }
        (ps ++ [Company.predicateText key st.index])
        (by rw [hinv, openPredicate_whereClause ps value _ hv]) hk' hs'
      exact ⟨st', by simp [Company.filterLoop, h1, h2], by simp [emittedPredicates, hv, h3]⟩

/-- Loop invariant of `Job.findAll`: the statement is the clause of the
predicates emitted so far. -/
theorem job_filterLoop_clause (js : Runtime)
    (filter : JsObject) (st : FilterState) (ps : List String)
    (hinv : st.filterStatement = whereClause ps)
    (hk : ∀ e ∈ filter, e.1 ∈ ["title", "minSalary", "hasEquity"])
    (hs : ∀ e ∈ filter, e.1 = "title" → e.2.truthy = true → ∃ v, e.2 = .string v) :
    ∃ st', Job.filterLoop js filter st = .ok st' ∧
      st'.filterStatement
        = whereClause (ps ++ emittedPredicates Job.predicateText filter st.index) := by
  induction filter generalizing st ps with
  | nil => exact ⟨st, rfl, by simp [emittedPredicates, hinv]⟩
  | cons e rest ih =>
    obtain ⟨key, value⟩ := e
    have hk' : ∀ e ∈ rest, e.1 ∈ ["title", "minSalary", "hasEquity"] :=
      fun e he => hk e (List.mem_cons_of_mem _ he)
    have hs' : ∀ e ∈ rest, e.1 = "title" → e.2.truthy = true → ∃ v, e.2 = .string v :=
      fun e he => hs e (List.mem_cons_of_mem _ he)
    cases hv : value.truthy with
    | false =>
      have h1 := job_filterStep_falsy js st key value (hk (key, value) (by simp)) hv
      obtain ⟨st', h2, h3⟩ := ih { st with index := st.index + 1 } ps hinv hk' hs'
      exact ⟨st', by simp [Job.filterLoop, h1, h2], by simp [emittedPredicates, hv, h3]⟩
    | true =>
      obtain ⟨vars, h1⟩ := job_filterStep_truthy js st key value (hk (key, value) (by simp)) hv
        (fun hn => hs (key, value) (by simp) hn hv)
      obtain ⟨st', h2, h3⟩ := ih
        { filterStatement :=
            openPredicate st.filterStatement value ++ Job.predicateText key st.index
          sqlVariables := vars
          index := st.index + 1 }
        (ps ++ [Job.predicateText key st.index])
        (by rw [hinv, openPredicate_whereClause ps value _ hv]) hk' hs'
      exact ⟨st', by simp [Job.filterLoop, h1, h2], by simp [emittedPredicates, hv, h3]⟩

/-- A text followed by an index ends with a decimal digit. -/
theorem literal_toString_last (lit : String) (n : Nat) :
    ∃ c, (lit ++ toString n).data.getLast? = some c ∧ c.isDigit = true := by
  obtain ⟨hne, _, hd⟩ := toString_data_decimal n
  refine ⟨(toString n).data.getLast hne, ?_, hd _ (List.getLast_mem hne)⟩
  rw [String.data_append, List.getLast?_append, List.getLast?_eq_getLast _ hne]
  rfl

/-- Every predicate of `Company.findAll` ends with a decimal digit. -/
theorem company_predicateText_last (key : String) (n : Nat) :
    ∃ c, (Company.predicateText key n).data.getLast? = some c ∧ c.isDigit = true := by
  unfold Company.predicateText
  split
  · exact literal_toString_last _ n
  · split <;> exact literal_toString_last _ n

/-- Every predicate of `Job.findAll` ends with a decimal digit. -/
theorem job_predicateText_last (key : String) (n : Nat) :
    ∃ c, (Job.predicateText key n).data.getLast? = some c ∧ c.isDigit = true := by
  unfold Job.predicateText
  split
  · exact literal_toString_last _ n
  · split
    · exact literal_toString_last _ n
    · exact ⟨'0', by rfl, by rfl⟩

/-- The emitted predicates are, one for one and in order, predicates of the
keys of the entries with a truthy value. -/
theorem emittedPredicates_forall2 (pt : String → Nat → String) (filter : JsObject) (n : Nat) :
    List.Forall₂ (fun p e => ∃ i, p = pt e.1 i) (emittedPredicates pt filter n)
      (filter.filter (fun e => e.2.truthy)) := by
  induction filter generalizing n with
  | nil => exact List.Forall₂.nil
  | cons e rest ih =>
    obtain ⟨key, value⟩ := e
    cases hv : value.truthy with
    | false => simpa [emittedPredicates, hv] using ih (n + 1)
    | true =>
      simp only [emittedPredicates, hv, List.filter_cons_of_pos, if_true]
      exact List.Forall₂.cons ⟨n, rfl⟩ (ih (n + 1))

/-- No predicate is emitted exactly when no entry has a truthy value. -/
theorem emittedPredicates_eq_nil_iff (pt : String → Nat → String) (filter : JsObject) (n : Nat) :
    emittedPredicates pt filter n = [] ↔ ∀ e ∈ filter, e.2.truthy = false := by
  induction filter generalizing n with
  | nil => simp [emittedPredicates]
  | cons e rest ih =>
    obtain ⟨key, value⟩ := e
    cases hv : value.truthy <;> simp [emittedPredicates, hv, ih (n + 1)]

/-- Every emitted predicate is a predicate of some key at some index. -/
theorem emittedPredicates_mem (pt : String → Nat → String) (filter : JsObject) (n : Nat)
    (p : String) (hp : p ∈ emittedPredicates pt filter n) : ∃ k i, p = pt k i := by
  induction filter generalizing n with
  | nil => simp [emittedPredicates] at hp
  | cons e rest ih =>
    obtain ⟨key, value⟩ := e
    cases hv : value.truthy with
    | false =>
      simp only [emittedPredicates, hv] at hp
      exact ih (n + 1) hp
    | true =>
      simp only [emittedPredicates, hv, if_true, List.mem_cons] at hp
      rcases hp with rfl | hp
      · exact ⟨key, n, rfl⟩
      · exact ih (n + 1) hp

/-- The clause of at least one predicate ends as its last predicate does. -/
theorem whereClause_last (preds : List String) (hne : preds ≠ [])
    (hp : ∀ p ∈ preds, ∃ c, p.data.getLast? = some c ∧ c.isDigit = true) :
    ∃ c, (whereClause preds).data.getLast? = some c ∧ c.isDigit = true := by
  rcases List.eq_nil_or_concat preds with rfl | ⟨front, last, rfl⟩
  · exact absurd rfl hne
  · obtain ⟨c, hc, hd⟩ := hp last (by simp)
    refine ⟨c, ?_, hd⟩
    rw [List.concat_eq_append]
    cases front with
    | nil =>
      rw [List.nil_append, whereClause_singleton, String.data_append, List.getLast?_append, hc]
      rfl
    | cons a l =>
      rw [whereClause_concat, String.data_append, List.getLast?_append, hc]
      rfl

/-- A clause whose predicates end with a digit is not a bare `"WHERE "` and
neither begins nor ends with `" AND "`. -/
theorem whereClause_shape (preds : List String)
    (hp : ∀ p ∈ preds, ∃ c, p.data.getLast? = some c ∧ c.isDigit = true) :
    whereClause preds ≠ "WHERE " ∧ (∀ r, whereClause preds ≠ " AND " ++ r) ∧
      (∀ r, whereClause preds ≠ r ++ " AND ") := by
  cases preds with
  | nil =>
    refine ⟨by decide, fun r h => ?_, fun r h => ?_⟩
    · have := congrArg String.data h
      simp [whereClause] at this
    · have := congrArg String.data h
      simp [whereClause] at this
  | cons a l =>
    obtain ⟨c, hc, hd⟩ := whereClause_last (a :: l) (by simp) hp
    obtain ⟨t, ht⟩ := whereClause_cons_data a l
    refine ⟨fun h => ?_, fun r h => ?_, fun r h => ?_⟩
    · rw [h] at hc
      have : c = ' ' := by
        have h2 : "WHERE ".data.getLast? = some ' ' := by rfl
        rw [h2] at hc
        exact (Option.some.inj hc).symm
      rw [this] at hd
      exact absurd hd (by decide)
    · rw [h] at ht
      simp at ht
    · rw [h, String.data_append] at hc
      have h2 : (r.data ++ " AND ".data).getLast? = some ' ' := by
        rw [List.getLast?_append]
        rfl
      rw [h2] at hc
      have : c = ' ' := (Option.some.inj hc).symm
      rw [this] at hd
      exact absurd hd (by decide)

/-- The clause `Company.findAll` ends its loop with, for allowed keys. -/
theorem company_filterLoop_shape (js : Runtime) (filter : JsObject)
    (hk : ∀ e ∈ filter, e.1 ∈ ["name", "minEmployees", "maxEmployees"])
    (hs : ∀ e ∈ filter, e.1 = "name" → e.2.truthy = true → ∃ v, e.2 = .string v) :
    ∃ (st : FilterState) (preds : List String),
      Company.filterLoop js filter FilterState.init = .ok st ∧
      List.Forall₂ (fun p e => ∃ i, p = Company.predicateText e.1 i) preds
        (filter.filter (fun e => e.2.truthy)) ∧
      preds.length = (filter.filter (fun e => e.2.truthy)).length ∧
      (preds = [] → st.filterStatement = "") ∧
      (preds ≠ [] → st.filterStatement = "WHERE " ++ " AND ".intercalate preds) ∧
      (st.filterStatement = "" ↔ ∀ e ∈ filter, e.2.truthy = false) ∧
      st.filterStatement ≠ "WHERE " ∧
      (∀ r, st.filterStatement ≠ " AND " ++ r) ∧
      (∀ r, st.filterStatement ≠ r ++ " AND ") := by
  obtain ⟨st, h1, h2⟩ := company_filterLoop_clause js filter FilterState.init [] rfl hk hs
  rw [List.nil_append] at h2
  have hf := emittedPredicates_forall2 Company.predicateText filter FilterState.init.index
  have hlast : ∀ p ∈ emittedPredicates Company.predicateText filter FilterState.init.index,
      ∃ c, p.data.getLast? = some c ∧ c.isDigit = true := by
    intro p hp
    obtain ⟨k, i, rfl⟩ := emittedPredicates_mem _ _ _ p hp
    exact company_predicateText_last k i
  have hshape := whereClause_shape _ hlast
  rw [← h2] at hshape
  refine ⟨st, _, h1, hf, hf.length_eq, ?_, ?_, ?_, hshape.1, hshape.2.1, hshape.2.2⟩
  · intro h0
    rw [h2, h0]
    rfl
  · intro h0
    rw [h2]
    cases hp : emittedPredicates Company.predicateText filter FilterState.init.index with
    | nil => exact absurd hp h0
    | cons a l => rfl
  · rw [← emittedPredicates_eq_nil_iff Company.predicateText filter FilterState.init.index, h2]
    constructor
    · intro h0
      cases hp : emittedPredicates Company.predicateText filter FilterState.init.index with
      | nil => rfl
      | cons a l =>
        rw [hp] at h0
        exact absurd h0 (whereClause_cons_ne_empty a l)
    · intro h0
      rw [h0]
      rfl

/-- The clause `Job.findAll` ends its loop with, for allowed keys. -/
theorem job_filterLoop_shape (js : Runtime) (filter : JsObject)
    (hk : ∀ e ∈ filter, e.1 ∈ ["title", "minSalary", "hasEquity"])
    (hs : ∀ e ∈ filter, e.1 = "title" → e.2.truthy = true → ∃ v, e.2 = .string v) :
    ∃ (st : FilterState) (preds : List String),
      Job.filterLoop js filter FilterState.init = .ok st ∧
      List.Forall₂ (fun p e => ∃ i, p = Job.predicateText e.1 i) preds
        (filter.filter (fun e => e.2.truthy)) ∧
      preds.length = (filter.filter (fun e => e.2.truthy)).length ∧
      (preds = [] → st.filterStatement = "") ∧
      (preds ≠ [] → st.filterStatement = "WHERE " ++ " AND ".intercalate preds) ∧
      (st.filterStatement = "" ↔ ∀ e ∈ filter, e.2.truthy = false) ∧
      st.filterStatement ≠ "WHERE " ∧
      (∀ r, st.filterStatement ≠ " AND " ++ r) ∧
      (∀ r, st.filterStatement ≠ r ++ " AND ") := by
  obtain ⟨st, h1, h2⟩ := job_filterLoop_clause js filter FilterState.init [] rfl hk hs
  rw [List.nil_append] at h2
  have hf := emittedPredicates_forall2 Job.predicateText filter FilterState.init.index
  have hlast : ∀ p ∈ emittedPredicates Job.predicateText filter FilterState.init.index,
      ∃ c, p.data.getLast? = some c ∧ c.isDigit = true := by
    intro p hp
    obtain ⟨k, i, rfl⟩ := emittedPredicates_mem _ _ _ p hp
    exact job_predicateText_last k i
  have hshape := whereClause_shape _ hlast
  rw [← h2] at hshape
  refine ⟨st, _, h1, hf, hf.length_eq, ?_, ?_, ?_, hshape.1, hshape.2.1, hshape.2.2⟩
  · intro h0
    rw [h2, h0]
    rfl
  · intro h0
    rw [h2]
    cases hp : emittedPredicates Job.predicateText filter FilterState.init.index with
    | nil => exact absurd hp h0
    | cons a l => rfl
  · rw [← emittedPredicates_eq_nil_iff Job.predicateText filter FilterState.init.index, h2]
    constructor
    · intro h0
      cases hp : emittedPredicates Job.predicateText filter FilterState.init.index with
      | nil => rfl
      | cons a l =>
        rw [hp] at h0
        exact absurd h0 (whereClause_cons_ne_empty a l)
    · intro h0
      rw [h0]
      rfl

/-- C12: for a filter whose keys are all allowed (a truthy `name` or `title`
being a string), the loop of `Company.findAll`, and likewise of `Job.findAll`,
runs to its end with a clause made of a list of predicates, one for each entry
with a truthy value and in the order of those entries, each the predicate of
its entry's key: the clause is `""` if the list is empty, which is the case
exactly when no entry has a truthy value, and `"WHERE "` followed by the
predicates joined with `" AND "` otherwise; it is never the bare `"WHERE "` and
neither begins nor ends with `" AND "`. -/
theorem findAll_clause_is_where_joined_predicates (js : Runtime) (filter : JsObject) :
    ((∀ e ∈ filter, e.1 ∈ ["name", "minEmployees", "maxEmployees"]) →
      (∀ e ∈ filter, e.1 = "name" → e.2.truthy = true → ∃ v, e.2 = .string v) →
      ∃ (st : FilterState) (preds : List String),
        Company.filterLoop js filter FilterState.init = .ok st ∧
        List.Forall₂ (fun p e => ∃ i, p = Company.predicateText e.1 i) preds
          (filter.filter (fun e => e.2.truthy)) ∧
        preds.length = (filter.filter (fun e => e.2.truthy)).length ∧
        (preds = [] → st.filterStatement = "") ∧
        (preds ≠ [] → st.filterStatement = "WHERE " ++ " AND ".intercalate preds) ∧
        (st.filterStatement = "" ↔ ∀ e ∈ filter, e.2.truthy = false) ∧
        st.filterStatement ≠ "WHERE " ∧
        (∀ r, st.filterStatement ≠ " AND " ++ r) ∧
        (∀ r, st.filterStatement ≠ r ++ " AND ")) ∧
    ((∀ e ∈ filter, e.1 ∈ ["title", "minSalary", "hasEquity"]) →
      (∀ e ∈ filter, e.1 = "title" → e.2.truthy = true → ∃ v, e.2 = .string v) →
      ∃ (st : FilterState) (preds : List String),
        Job.filterLoop js filter FilterState.init = .ok st ∧
        List.Forall₂ (fun p e => ∃ i, p = Job.predicateText e.1 i) preds
          (filter.filter (fun e => e.2.truthy)) ∧
        preds.length = (filter.filter (fun e => e.2.truthy)).length ∧
        (preds = [] → st.filterStatement = "") ∧
        (preds ≠ [] → st.filterStatement = "WHERE " ++ " AND ".intercalate preds) ∧
        (st.filterStatement = "" ↔ ∀ e ∈ filter, e.2.truthy = false) ∧
        st.filterStatement ≠ "WHERE " ∧
        (∀ r, st.filterStatement ≠ " AND " ++ r) ∧
        (∀ r, st.filterStatement ≠ r ++ " AND ")) :=
  ⟨company_filterLoop_shape js filter, job_filterLoop_shape js filter⟩

/-- C12 at `{name: "Net", minEmployees: 0, maxEmployees: 5}` and at
`{title: "Dev", hasEquity: false, minSalary: 1}`: two of the three entries are
truthy, and the clause is two predicates joined behind `WHERE`. -/
theorem findAll_clause_is_where_joined_predicates_witness :
    (∃ (st : FilterState) (preds : List String),
      Company.filterLoop asciiRuntime
          [("name", .string "Net"), ("minEmployees", .number 0), ("maxEmployees", .number 5)]
          FilterState.init = .ok st ∧
        preds.length = 2 ∧
        st.filterStatement = "WHERE " ++ " AND ".intercalate preds) ∧
    (∃ (st : FilterState) (preds : List String),
      Job.filterLoop asciiRuntime
          [("title", .string "Dev"), ("hasEquity", .bool false), ("minSalary", .number 1)]
          FilterState.init = .ok st ∧
        preds.length = 2 ∧
        st.filterStatement = "WHERE " ++ " AND ".intercalate preds) := by
  constructor
  · obtain ⟨st, preds, h1, _, h3, _, h5, _⟩ :=
      (findAll_clause_is_where_joined_predicates asciiRuntime
        [("name", .string "Net"), ("minEmployees", .number 0), ("maxEmployees", .number 5)]).1
        (by simp) (by simp)
    have hlen : preds.length = 2 := h3
    exact ⟨st, preds, h1, hlen, h5 (by intro h0; simp [h0] at hlen)⟩
  · obtain ⟨st, preds, h1, _, h3, _, h5, _⟩ :=
      (findAll_clause_is_where_joined_predicates asciiRuntime
        [("title", .string "Dev"), ("hasEquity", .bool false), ("minSalary", .number 1)]).2
        (by simp) (by simp)
    have hlen : preds.length = 2 := h3
    exact ⟨st, preds, h1, hlen, h5 (by intro h0; simp [h0] at hlen)⟩

/-- The clause of the same filter, evaluated. -/
theorem company_filterLoop_shape_example :
    Company.filterLoop asciiRuntime
        [("name", .string "Net"), ("minEmployees", .number 0), ("maxEmployees", .number 5)]
        FilterState.init
      = .ok { filterStatement := "WHERE LOWER(name) LIKE $1 AND num_employees <= $3"
              sqlVariables := [.string "%net%", .number 5]
              index := 4 } := by
  rfl

end Jobly
